import Mathlib

/-!
Verification of the numerical root-finding core of the
Numerical-Analysis-App repository.

Shallow embedding conventions:

* Python floats are modelled by `PyVal`: either an exact rational number
  (`PyVal.num q`) or the NaN sentinel (`PyVal.nan`).  Exact rational
  arithmetic stands in for IEEE doubles; every claim under study concerns
  control flow, comparisons against explicit tolerances and the propagation
  of the NaN sentinel, none of which depends on rounding of finite values.
  Infinities produced by float overflow cannot arise over exact rationals;
  where the source checks `isinf` together with `isnan` the embedding keeps
  the reachable (`nan`) part of the check.
* Transcendental functions (`sqrt`, `log`) cannot take exact rational
  values.  `ratSqrt`/`ratLog` are computable rational stand-ins whose
  numeric output is irrelevant to every claim; what matters — and what is
  modelled exactly — is their domain behaviour (negative argument to sqrt,
  non-positive argument to log) in `evalRaw`.
* Compiled callables (the output of `_create_function`) are modelled as
  total functions `ℚ → PyVal`, which is exactly the contract of the
  `safe_eval` wrapper in `src/core/methods/base.py`.
* Iteration traces are modelled as lists of per-method row types carrying
  the semantic content of each `OrderedDict` row.  Display formatting
  (`_round_value`, `_format_error`, string interpolation of numbers into
  messages) is presentational and is not modelled: message rows keep the
  literal text of the source message, with interpolated numeric values
  omitted.
* Bounded loops (`for i in range(max_iter)`, the Fixed-Point `while True`)
  are translated by structural recursion on a fuel argument equal to the
  iteration budget; each solver also reports `passes`, the number of times
  the loop body was entered, mirroring the source's `i`/`iter_count`.
-/

/-- Python `abs` on a float, written as a conditional so that concrete
rational runs reduce by `norm_num`. -/
def ratAbs (a : ℚ) : ℚ := if a < 0 then -a else a

theorem ratAbs_eq_abs (a : ℚ) : ratAbs a = |a| := by
  unfold ratAbs
  rcases lt_or_le a 0 with h | h
  · rw [if_pos h, abs_of_neg h]
  · rw [if_neg (not_lt.mpr h), abs_of_nonneg h]

/-- Result of evaluating a compiled expression at a point: either a finite
real (modelled as an exact rational) or the NaN sentinel (`float('nan')`). -/
inductive PyVal where
  | num (q : ℚ)
  | nan
deriving DecidableEq, Repr

namespace PyVal

/-- Python float addition: NaN propagates. -/
def add : PyVal → PyVal → PyVal
  | num a, num b => num (a + b)
  | _, _ => nan

/-- Python float subtraction: NaN propagates. -/
def sub : PyVal → PyVal → PyVal
  | num a, num b => num (a - b)
  | _, _ => nan

/-- Python float multiplication: NaN propagates. -/
def mul : PyVal → PyVal → PyVal
  | num a, num b => num (a * b)
  | _, _ => nan

/-- Python float `abs`: NaN propagates. -/
def pyAbs : PyVal → PyVal
  | num a => num (ratAbs a)
  | nan => nan

/-- Python comparison `v < c` against a rational constant: any comparison
with NaN is False. -/
def ltQ : PyVal → ℚ → Bool
  | num a, c => a < c
  | nan, _ => false

/-- Python comparison `v > c` against a rational constant: any comparison
with NaN is False. -/
def gtQ : PyVal → ℚ → Bool
  | num a, c => a > c
  | nan, _ => false

/-- The `math.isnan` test. -/
def isNan : PyVal → Bool
  | num _ => false
  | nan => true

end PyVal

/-- Tight tolerance `1e-10` used for exact-root detection, near-zero guards
and the `=` convergence operator. -/
def tol10 : ℚ := 1 / 10000000000

/-- Oscillation-detection tolerance `1e-6` (newton_raphson.py line 486). -/
def tol6 : ℚ := 1 / 1000000

/-- Tolerance `1e-9` used by `NewtonRaphsonMethod._check_convergence` for
the `=` operator. -/
def tol9 : ℚ := 1 / 1000000000

/-- Tolerance `1e-15` used in Newton-Raphson relative-error computation. -/
def tol15 : ℚ := 1 / 1000000000000000

/-- Divergence bound `1e15` (`NewtonRaphsonMethod.divergence_threshold`). -/
def divergenceThreshold : ℚ := 1000000000000000

/-- The five recognized comparison operators of the convergence policy. -/
inductive EpsOp where
  | le | ge | lt | gt | eq
deriving DecidableEq, Repr

/-- NumericalMethodBase._check_convergence (base.py lines 210-238): applies
the configured operator to compare the current error against the threshold;
the `=` operator uses a fixed absolute tolerance `1e-10`. -/
def checkConvergence (error eps : ℚ) : EpsOp → Bool
  | .le => error ≤ eps
  | .ge => error ≥ eps
  | .lt => error < eps
  | .gt => error > eps
  | .eq => ratAbs (error - eps) < tol10

/-- Computable rational stand-in for the square root of a non-negative
rational.  Its numeric value is irrelevant to every claim (only the domain
guard in `evalRaw` matters); it is exact on perfect squares of naturals. -/
def ratSqrt (q : ℚ) : ℚ :=
  if q < 0 then 0 else (Nat.sqrt (q.num.toNat * q.den) : ℚ) / (q.den : ℚ)

/-- Computable rational stand-in for the natural logarithm of a positive
rational.  Its numeric value is irrelevant to every claim (only the domain
guard in `evalRaw` matters). -/
def ratLog (q : ℚ) : ℚ := q - 1

/-- Abstract syntax of a parsed single-variable expression, the result of
`sp.sympify` in `NumericalMethodBase._create_function` (base.py line 33). -/
inductive Expr where
  | const (q : ℚ)
  | var
  | add (a b : Expr)
  | sub (a b : Expr)
  | mul (a b : Expr)
  | div (a b : Expr)
  | pow (a : Expr) (n : ℕ)
  | sqrt (a : Expr)
  | log (a : Expr)
deriving DecidableEq, Repr

/-- Exceptions the compiled evaluator can raise; all of them are listed in
the `except` clause of `safe_eval` (base.py line 58). -/
inductive PyExn where
  | zeroDivision
  | valueError
  | overflow
deriving DecidableEq, Repr

/-- Outcome of the raw (unguarded) evaluation of the lambdified expression
inside `safe_eval`, before the complex/NaN/infinity checks and the
`except` clause run: a finite real, a complex value (square root of a
negative), a NaN, an infinity (logarithm of zero), or a raised exception
(division by zero). -/
inductive RawOut where
  | val (q : ℚ)
  | complexVal
  | nanVal
  | infVal
  | exn (e : PyExn)
deriving DecidableEq, Repr

/-- Propagation of non-value outcomes through a binary float operation:
a raised exception aborts evaluation first; otherwise complex, NaN and
infinite operands contaminate the result. -/
def RawOut.bin (op : ℚ → ℚ → ℚ) : RawOut → RawOut → RawOut
  | val a, val b => val (op a b)
  | exn e, _ => exn e
  | _, exn e => exn e
  | complexVal, _ => complexVal
  | _, complexVal => complexVal
  | nanVal, _ => nanVal
  | _, nanVal => nanVal
  | infVal, _ => infVal
  | _, infVal => infVal

/-- Raw evaluation of an expression at a real point, tracking the faults
that `safe_eval` must intercept: square root of a negative number yields a
complex result, logarithm of a negative number yields NaN and of zero an
infinity, division by zero raises `ZeroDivisionError`. -/
def evalRaw (e : Expr) (x : ℚ) : RawOut :=
  match e with
  | .const q => .val q
  | .var => .val x
  | .add a b => RawOut.bin (· + ·) (evalRaw a x) (evalRaw b x)
  | .sub a b => RawOut.bin (· - ·) (evalRaw a x) (evalRaw b x)
  | .mul a b => RawOut.bin (· * ·) (evalRaw a x) (evalRaw b x)
  | .div a b =>
      match evalRaw a x, evalRaw b x with
      | .val p, .val q => if q = 0 then .exn .zeroDivision else .val (p / q)
      | .exn e, _ => .exn e
      | _, .exn e => .exn e
      | .complexVal, _ => .complexVal
      | _, .complexVal => .complexVal
      | .nanVal, _ => .nanVal
      | _, .nanVal => .nanVal
      | .infVal, _ => .infVal
      | _, .infVal => .infVal
  | .pow a n =>
      match evalRaw a x with
      | .val p => .val (p ^ n)
      | o => o
  | .sqrt a =>
      match evalRaw a x with
      | .val p => if p < 0 then .complexVal else .val (ratSqrt p)
      | o => o
  | .log a =>
      match evalRaw a x with
      | .val p => if p < 0 then .nanVal else if p = 0 then .infVal else .val (ratLog p)
      | o => o

/-- The `safe_eval` closure of `NumericalMethodBase._create_function`
(base.py lines 39-62): evaluate the compiled lambda, substitute NaN for a
complex result, for a NaN or infinite result, and for any raised
evaluation exception; otherwise return the finite float. -/
def safeEval (e : Expr) (x : ℚ) : PyVal :=
  match evalRaw e x with
  | .val q => .num q
  | .complexVal => .nan
  | .nanVal => .nan
  | .infVal => .nan
  | .exn _ => .nan

/-- C1 — for every compiled expression and every real input, `safe_eval`
returns either a finite real (the raw evaluation value) or the NaN
sentinel, and every domain violation — square root of a negative number,
logarithm of a non-positive number, division by zero — is detected and
substituted by NaN before return, never propagated as an exception. -/
theorem safeEval_total_and_domain_safe :
    (∀ (e : Expr) (x : ℚ),
      (∃ r : ℚ, evalRaw e x = .val r ∧ safeEval e x = .num r) ∨
      safeEval e x = .nan) ∧
    (∀ (a : Expr) (x q : ℚ), evalRaw a x = .val q → q < 0 →
      safeEval (.sqrt a) x = .nan) ∧
    (∀ (a : Expr) (x q : ℚ), evalRaw a x = .val q → q ≤ 0 →
      safeEval (.log a) x = .nan) ∧
    (∀ (a b : Expr) (x : ℚ), evalRaw b x = .val 0 →
      safeEval (.div a b) x = .nan) := by
  refine ⟨?_, ?_, ?_, ?_⟩
  · intro e x
    unfold safeEval
    cases h : evalRaw e x with
    | val q => exact Or.inl ⟨q, rfl, rfl⟩
    | complexVal => exact Or.inr rfl
    | nanVal => exact Or.inr rfl
    | infVal => exact Or.inr rfl
    | exn pe => exact Or.inr rfl
  · intro a x q h hq
    unfold safeEval evalRaw
    rw [h]
    simp [hq]
  · intro a x q h hq
    unfold safeEval evalRaw
    rw [h]
    rcases lt_or_eq_of_le hq with h0 | h0
    · simp [h0]
    · simp [h0.symm, lt_irrefl]
  · intro a b x h
    unfold safeEval evalRaw
    rw [h]
    cases evalRaw a x <;> simp

/-- Witness for C1 at concrete inputs: `sqrt(x)` at `-1` (negative
argument), `log(x)` at `0` (non-positive argument), and `1/x` at `0`
(division by zero) all yield the NaN sentinel. -/
theorem safeEval_total_and_domain_safe_witness :
    safeEval (.sqrt .var) (-1) = .nan ∧
    safeEval (.log .var) 0 = .nan ∧
    safeEval (.div (.const 1) .var) 0 = .nan := by
  refine ⟨?_, ?_, ?_⟩
  · exact safeEval_total_and_domain_safe.2.1 .var (-1) (-1) rfl (by norm_num)
  · exact safeEval_total_and_domain_safe.2.2.1 .var 0 0 rfl le_rfl
  · exact safeEval_total_and_domain_safe.2.2.2 (.const 1) .var 0 rfl

/-- Displayed error value of an iteration row: the first iteration shows
the literal placeholder `---`, later ones a numeric value. -/
inductive ErrDisp where
  | dash
  | val (q : ℚ)
deriving DecidableEq, Repr

/-- One row of the Bisection iteration table (bisection.py): either an
iteration record (with the optional `Interval Update` annotation added
after the bracket update) or a terminal message row carrying the message,
`Status` and `Details` fields. -/
inductive BRow where
  | iter (i : ℕ) (xl xu xr : ℚ) (fxr : PyVal) (err : ErrDisp) (update : Option String)
  | msg (text status details : String)
deriving DecidableEq, Repr

/-- Result of `BisectionMethod.solve`: the root (absent on the
bracketing-precondition failure), the trace, and the number of times the
loop body ran.  `nameErr` models the `UnboundLocalError` raised by the
fall-through `return xr` when the loop never ran (`max_iter = 0`), after
the max-iterations row was already appended. -/
inductive BResult where
  | ok (root : Option ℚ) (rows : List BRow) (passes : ℕ)
  | nameErr (rows : List BRow) (passes : ℕ)
deriving DecidableEq, Repr

/-- The epsilon-stop ladder of `BisectionMethod.solve` (bisection.py lines
144-242), reached when `i > 0 and stop_by_eps`: for `eps > 1` the relative
percentage error (falling back to the absolute difference when
`abs(xr) <= 1e-10`) is compared by the configured operator, otherwise the
absolute difference is compared; on a hit the matching message/status pair
is produced.  Message texts keep the source literals with interpolated
numbers omitted. -/
def bisectEpsStop (eps : ℚ) (op : EpsOp) (absDiff xr : ℚ) :
    Option (String × String × String) :=
  if eps > 1 then
    let relError := if ratAbs xr > tol10 then absDiff / ratAbs xr * 100 else absDiff
    match op with
    | .le => if relError ≤ eps then
        some ("Stopped by Epsilon: Relative Error <=", "CONVERGED", "Achieved desired accuracy") else none
    | .ge => if relError ≥ eps then
        some ("Stopped by Epsilon: Relative Error >=", "STOPPED", "Error threshold reached") else none
    | .lt => if relError < eps then
        some ("Stopped by Epsilon: Relative Error <", "CONVERGED", "Achieved desired accuracy") else none
    | .gt => if relError > eps then
        some ("Stopped by Epsilon: Relative Error >", "STOPPED", "Error exceeds threshold") else none
    | .eq => if ratAbs (relError - eps) < tol10 then
        some ("Stopped by Epsilon: Relative Error =", "EXACT", "Error exactly matches threshold") else none
  else
    match op with
    | .le => if absDiff ≤ eps then
        some ("Stopped by Epsilon: |xi+1 - xi| <=", "CONVERGED", "Achieved desired accuracy") else none
    | .ge => if absDiff ≥ eps then
        some ("Stopped by Epsilon: |xi+1 - xi| >=", "STOPPED", "Error threshold reached") else none
    | .lt => if absDiff < eps then
        some ("Stopped by Epsilon: |xi+1 - xi| <", "CONVERGED", "Achieved desired accuracy") else none
    | .gt => if absDiff > eps then
        some ("Stopped by Epsilon: |xi+1 - xi| >", "STOPPED", "Error exceeds threshold") else none
    | .eq => if ratAbs (absDiff - eps) < tol10 then
        some ("Stopped by Epsilon: |xi+1 - xi| =", "EXACT", "Error exactly matches threshold") else none

/-- Outcome of one pass of the Bisection loop body: an early return with
the rows it appends, or continuation with the updated bracket, the stored
function values, the midpoint just computed (the next `xr_old`) and the
iteration row (carrying its `Interval Update` annotation). -/
inductive BIterOut where
  | ret (root : ℚ) (rows : List BRow)
  | cont (xl xu : ℚ) (fxl fxu : PyVal) (xr : ℚ) (row : BRow)
deriving DecidableEq, Repr

/-- One pass of the Bisection loop body (bisection.py lines 80-255):
compute the midpoint, evaluate `f` there, build the row, return on
exact-root detection or on an epsilon stop (`i > 0 and stop_by_eps`), and
otherwise update the bracket — `xu = xr` when `f(xl)*f(xr) < 0` (a NaN
product compares False), else `xl = xr`. -/
def bisectIter (f : ℚ → PyVal) (eps : ℚ) (op : EpsOp) (sbe : Bool)
    (i : ℕ) (xl xu : ℚ) (fxl fxu : PyVal) (xrOld : ℚ) : BIterOut :=
  let xr := (xl + xu) / 2
  let fxr := f xr
  let absDiff := ratAbs (xr - xrOld)
  let err : ErrDisp :=
    if 0 < i then (if ratAbs xr < tol10 then .val absDiff else .val (absDiff / ratAbs xr * 100))
    else .dash
  let row : BRow := .iter i xl xu xr fxr err none
  if (fxr.pyAbs).ltQ tol10 then
    .ret xr [row, .msg "Exact root found (within numerical precision)" "SUCCESS" "f(x) = 0 at xr"]
  else
    match (if 0 < i ∧ sbe then bisectEpsStop eps op absDiff xr else none) with
    | some (t, s, d) => .ret xr [row, .msg t s d]
    | none =>
        if (PyVal.mul fxl fxr).ltQ 0 then
          .cont xl xr fxl fxr xr (.iter i xl xu xr fxr err (some "Upper bound updated"))
        else
          .cont xr xu fxr fxu xr (.iter i xl xu xr fxr err (some "Lower bound updated"))

/-- The Bisection `for i in range(max_iter)` loop, by recursion on the
remaining fuel (`max_iter - i`).  The fall-through appends the
max-iterations row and returns the last midpoint; when no iteration ever
ran (`i = 0` at exhaustion) that `return xr` raises `UnboundLocalError`. -/
def bisectLoop (f : ℚ → PyVal) (eps : ℚ) (op : EpsOp) (sbe : Bool) :
    (fuel i : ℕ) → (xl xu : ℚ) → (fxl fxu : PyVal) → (xrOld : ℚ) → BResult
  | 0, i, _, _, _, _, xrOld =>
      if 0 < i then
        .ok (some xrOld)
          [.msg "Stopped by reaching maximum iterations" "MAX_ITERATIONS"
            "Consider increasing max_iter for more precision"] 0
      else
        .nameErr
          [.msg "Stopped by reaching maximum iterations" "MAX_ITERATIONS"
            "Consider increasing max_iter for more precision"] 0
  | fuel + 1, i, xl, xu, fxl, fxu, xrOld =>
      match bisectIter f eps op sbe i xl xu fxl fxu xrOld with
      | .ret root rows => .ok (some root) rows 1
      | .cont xl' xu' fxl' fxu' xr row =>
          match bisectLoop f eps op sbe fuel (i + 1) xl' xu' fxl' fxu' xr with
          | .ok root rows p => .ok root (row :: rows) (p + 1)
          | .nameErr rows p => .nameErr (row :: rows) (p + 1)

/-- BisectionMethod.solve (bisection.py lines 7-264): evaluate both
bounds, reject the bracket only when `f(xl)*f(xu) > 0`, return a bound
whose value is within `1e-10` of zero as the root, and otherwise run the
iteration loop. -/
def bisectSolve (f : ℚ → PyVal) (xl xu eps : ℚ) (op : EpsOp)
    (maxIter : ℕ) (sbe : Bool) : BResult :=
  let fxl := f xl
  let fxu := f xu
  if (PyVal.mul fxl fxu).gtQ 0 then
    .ok none
      [.msg "The interval does not bracket a root. Ensure f(xl) and f(xu) have opposite signs."
        "ERROR" "f(xl) and f(xu) have the same sign"] 0
  else if (fxl.pyAbs).ltQ tol10 then
    .ok (some xl) [.msg "Lower bound is already a root" "SUCCESS" "f(xl) = 0"] 0
  else if (fxu.pyAbs).ltQ tol10 then
    .ok (some xu) [.msg "Upper bound is already a root" "SUCCESS" "f(xu) = 0"] 0
  else
    bisectLoop f eps op sbe maxIter 0 xl xu fxl fxu 0

/-- Number of loop-body passes recorded in a Bisection result. -/
def BResult.passes : BResult → ℕ
  | .ok _ _ p => p
  | .nameErr _ p => p

/-- Trace recorded in a Bisection result. -/
def BResult.rows : BResult → List BRow
  | .ok _ rows _ => rows
  | .nameErr rows _ => rows

/-- Root recorded in a Bisection result (absent on the precondition
failure and on the `UnboundLocalError` path). -/
def BResult.root : BResult → Option ℚ
  | .ok r _ _ => r
  | .nameErr _ _ => none

/-- A terminal explanation row: a message row with non-empty text. -/
def BRow.isExplanation : BRow → Bool
  | .msg t _ _ => t ≠ ""
  | _ => false

/-- An iteration record row of the Bisection trace. -/
def BRow.isIter : BRow → Bool
  | .iter _ _ _ _ _ _ _ => true
  | _ => false

theorem bisectEpsStop_text_ne (eps : ℚ) (op : EpsOp) (absDiff xr : ℚ) :
    ∀ t s d, bisectEpsStop eps op absDiff xr = some (t, s, d) → t ≠ "" := by
  intro t s d he
  cases op <;> simp only [bisectEpsStop] at he <;>
    split at he <;> (try split at he) <;> (try split at he) <;>
    first
      | exact Option.noConfusion he
      | (simp only [Option.some.injEq, Prod.mk.injEq] at he
         obtain ⟨rfl, -, -⟩ := he
         simp)

/-- C3 — in every Bisection iteration the new estimate is the midpoint
`x_r = (x_l + x_u) / 2` (whether the pass returns early or continues), and
when the pass reaches the bracket update it replaces the bound sharing the
sign of `f(x_r)`: if `f(x_l)*f(x_r) < 0` then `x_u := x_r`, otherwise
(including the NaN cases, where the product comparison is False)
`x_l := x_r`. -/
theorem bisection_midpoint_and_sign_update
    (f : ℚ → PyVal) (eps : ℚ) (op : EpsOp) (sbe : Bool)
    (i : ℕ) (xl xu xrOld : ℚ) :
    (∀ root rows,
      bisectIter f eps op sbe i xl xu (f xl) (f xu) xrOld = .ret root rows →
      root = (xl + xu) / 2) ∧
    (∀ xl' xu' fxl' fxu' xr row,
      bisectIter f eps op sbe i xl xu (f xl) (f xu) xrOld = .cont xl' xu' fxl' fxu' xr row →
      xr = (xl + xu) / 2 ∧
      (if (PyVal.mul (f xl) (f ((xl + xu) / 2))).ltQ 0 then
        xl' = xl ∧ xu' = (xl + xu) / 2
      else
        xl' = (xl + xu) / 2 ∧ xu' = xu)) := by
  constructor
  · intro root rows h
    simp only [bisectIter] at h
    split at h
    · simp only [BIterOut.ret.injEq] at h
      exact h.1.symm
    · split at h
      · simp only [BIterOut.ret.injEq] at h
        exact h.1.symm
      · split at h <;> exact absurd h (by simp)
  · intro xl' xu' fxl' fxu' xr row h
    simp only [bisectIter] at h
    split at h
    · exact absurd h (by simp)
    · split at h
      · exact absurd h (by simp)
      · split at h
        · rename_i hc
          simp only [BIterOut.cont.injEq] at h
          rw [if_pos hc]
          exact ⟨h.2.2.2.2.1.symm, h.1.symm, h.2.1.symm⟩
        · rename_i hc
          simp only [BIterOut.cont.injEq] at h
          rw [if_neg hc]
          exact ⟨h.2.2.2.2.1.symm, h.1.symm, h.2.1.symm⟩

/-- Witness for C3: on `f(x) = x^2 - 4` with bracket `[0, 3]` at iteration
0 the pass continues, the estimate is the midpoint `3/2`, and since
`f(0)*f(3/2) > 0` the lower bound is replaced. -/
theorem bisection_midpoint_and_sign_update_witness :
    (3 : ℚ) / 2 = (0 + 3) / 2 ∧ ((3 : ℚ) / 2 = (0 + 3) / 2 ∧ (3 : ℚ) = 3) := by
  have h := (bisection_midpoint_and_sign_update
    (fun x => safeEval (.sub (.pow .var 2) (.const 4)) x)
    (1 / 10000) .le true 0 0 3 0).2 (3 / 2) 3
    (.num (-7 / 4)) (.num 5) (3 / 2)
    (.iter 0 0 3 (3 / 2) (.num (-7 / 4)) .dash (some "Lower bound updated"))
    (by norm_num [bisectIter, safeEval, evalRaw, RawOut.bin, PyVal.mul,
      PyVal.pyAbs, PyVal.ltQ, ratAbs, tol10, bisectEpsStop])
  have hc : ¬((PyVal.mul (safeEval (.sub (.pow .var 2) (.const 4)) 0)
      (safeEval (.sub (.pow .var 2) (.const 4)) ((0 + 3) / 2))).ltQ 0 = true) := by
    norm_num [safeEval, evalRaw, RawOut.bin, PyVal.mul, PyVal.ltQ]
  rw [if_neg hc] at h
  exact h

theorem bisectIter_ret_rows (f : ℚ → PyVal) (eps : ℚ) (op : EpsOp) (sbe : Bool)
    (i : ℕ) (xl xu : ℚ) (fxl fxu : PyVal) (xrOld : ℚ) :
    ∀ root rows, bisectIter f eps op sbe i xl xu fxl fxu xrOld = .ret root rows →
      ∃ r t s d, rows = [r, BRow.msg t s d] ∧ t ≠ "" := by
  intro root rows h
  simp only [bisectIter] at h
  split at h
  · simp only [BIterOut.ret.injEq] at h
    exact ⟨_, _, _, _, h.2.symm, by simp⟩
  · split at h
    · rename_i t s d heq
      simp only [BIterOut.ret.injEq] at h
      refine ⟨_, t, s, d, h.2.symm, ?_⟩
      split at heq
      · exact bisectEpsStop_text_ne eps op _ _ t s d heq
      · exact absurd heq (by simp)
    · split at h <;> exact absurd h (by simp)

theorem bisectLoop_passes_le (f : ℚ → PyVal) (eps : ℚ) (op : EpsOp) (sbe : Bool) :
    ∀ fuel i xl xu fxl fxu xrOld,
      (bisectLoop f eps op sbe fuel i xl xu fxl fxu xrOld).passes ≤ fuel := by
  intro fuel
  induction fuel with
  | zero =>
      intro i xl xu fxl fxu xrOld
      simp only [bisectLoop]
      split <;> simp [BResult.passes]
  | succ n ih =>
      intro i xl xu fxl fxu xrOld
      simp only [bisectLoop]
      split
      · simp [BResult.passes]
      · rename_i xl' xu' fxl' fxu' xr row heq
        split
        · rename_i root rows p hrec
          have := ih (i + 1) xl' xu' fxl' fxu' xr
          rw [hrec] at this
          simp only [BResult.passes] at this ⊢
          omega
        · rename_i rows p hrec
          have := ih (i + 1) xl' xu' fxl' fxu' xr
          rw [hrec] at this
          simp only [BResult.passes] at this ⊢
          omega

theorem bisectLoop_rows_end_msg (f : ℚ → PyVal) (eps : ℚ) (op : EpsOp) (sbe : Bool) :
    ∀ fuel i xl xu fxl fxu xrOld,
      ∃ l t s d, (bisectLoop f eps op sbe fuel i xl xu fxl fxu xrOld).rows
        = l ++ [BRow.msg t s d] ∧ t ≠ "" := by
  intro fuel
  induction fuel with
  | zero =>
      intro i xl xu fxl fxu xrOld
      simp only [bisectLoop]
      split <;> exact ⟨[], _, _, _, rfl, by simp⟩
  | succ n ih =>
      intro i xl xu fxl fxu xrOld
      simp only [bisectLoop]
      split
      · rename_i root rows heq
        obtain ⟨r, t, s, d, hrows, ht⟩ :=
          bisectIter_ret_rows f eps op sbe i xl xu fxl fxu xrOld root rows heq
        exact ⟨[r], t, s, d, by simp [BResult.rows, hrows], ht⟩
      · rename_i xl' xu' fxl' fxu' xr row heq
        split
        · rename_i root rows p hrec
          obtain ⟨l, t, s, d, hrows, ht⟩ := ih (i + 1) xl' xu' fxl' fxu' xr
          rw [hrec] at hrows
          simp only [BResult.rows] at hrows ⊢
          exact ⟨row :: l, t, s, d, by simp [hrows], ht⟩
        · rename_i rows p hrec
          obtain ⟨l, t, s, d, hrows, ht⟩ := ih (i + 1) xl' xu' fxl' fxu' xr
          rw [hrec] at hrows
          simp only [BResult.rows] at hrows ⊢
          exact ⟨row :: l, t, s, d, by simp [hrows], ht⟩

/-- Application of a compiled callable to a Python float: compiled
expressions map a NaN input to NaN (every arithmetic and library function
propagates NaN and `safe_eval` returns it unchanged). -/
def PyVal.app (f : ℚ → PyVal) : PyVal → PyVal
  | num q => f q
  | nan => nan

/-- Python float comparison `v <= c`: False when `v` is NaN. -/
def PyVal.leQ : PyVal → ℚ → Bool
  | .num a, c => a ≤ c
  | .nan, _ => false

/-- Python float comparison `v >= c`: False when `v` is NaN. -/
def PyVal.geQ : PyVal → ℚ → Bool
  | .num a, c => a ≥ c
  | .nan, _ => false

/-- Python float division `a / b`: raises `ZeroDivisionError` (`none`)
exactly when the divisor is the float `0.0`; a NaN divisor yields NaN. -/
def pyDiv : PyVal → PyVal → Option PyVal
  | .num x, .num y => if y = 0 then none else some (.num (x / y))
  | .nan, .num y => if y = 0 then none else some .nan
  | _, .nan => some .nan

/-- Division used where the source guarantees a non-zero (or NaN)
divisor by an earlier guard; the `none` case of `pyDiv` is unreachable
there and collapses to NaN. -/
def pyDivG (a b : PyVal) : PyVal :=
  match pyDiv a b with
  | some v => v
  | none => .nan

/-- One row of the False Position trace (false_position.py): single-key
dictionaries `{"Error": …}` / `{"Message": …}` or an iteration record. -/
inductive FPosRow where
  | iter (i : ℕ) (xl xu xr fxr : PyVal) (err : ErrDisp)
  | errRow (text : String)
  | msgRow (text : String)
deriving DecidableEq, Repr

/-- Result of `FalsePositionMethod.solve`.  `raised` models a
`ZeroDivisionError` escaping the method (no `try` protects the loop), and
`nameErr` the `UnboundLocalError` of the fall-through `return xr` when no
iteration ever ran; in both cases the local trace is lost. -/
inductive FPosResult where
  | ok (root : Option PyVal) (rows : List FPosRow) (passes : ℕ)
  | raised (passes : ℕ)
  | nameErr (passes : ℕ)
deriving DecidableEq, Repr

/-- Number of loop-body passes of a False Position result. -/
def FPosResult.passes : FPosResult → ℕ
  | .ok _ _ p => p
  | .raised p => p
  | .nameErr p => p

/-- Trace of a False Position result (empty when an exception escaped). -/
def FPosResult.rows : FPosResult → List FPosRow
  | .ok _ rows _ => rows
  | _ => []

/-- The epsilon ladder of `FalsePositionMethod.solve` (lines 98-119):
always the absolute difference, compared by the configured operator
(`=` with tolerance `1e-10`); the difference is a float that is NaN when
the estimate is NaN, and every comparison with NaN is False. -/
def fposEpsStop (eps : ℚ) (op : EpsOp) (absDiff : PyVal) : Option String :=
  match op with
  | .le => if absDiff.leQ eps then some "Stopped by Epsilon: |xi+1 - xi| <= eps" else none
  | .ge => if absDiff.geQ eps then some "Stopped by Epsilon: |xi+1 - xi| >= eps" else none
  | .lt => if absDiff.ltQ eps then some "Stopped by Epsilon: |xi+1 - xi| < eps" else none
  | .gt => if absDiff.gtQ eps then some "Stopped by Epsilon: |xi+1 - xi| > eps" else none
  | .eq => if ((absDiff.sub (.num eps)).pyAbs).ltQ tol10 then
      some "Stopped by Epsilon: |xi+1 - xi| = eps" else none

/-- Outcome of one pass of the False Position loop body. -/
inductive FPosIterOut where
  | ret (root : PyVal) (rows : List FPosRow)
  | crash
  | cont (xl xu fxl fxu xr : PyVal) (row : FPosRow)
deriving DecidableEq, Repr

/-- One pass of the False Position loop body (false_position.py lines
59-127): secant-intercept estimate
`xr = xl - f(xl)*(xu - xl)/(f(xu) - f(xl))` (an exactly-zero denominator
raises `ZeroDivisionError`, unguarded in the source), exact-root check,
absolute-difference epsilon ladder, and the same sign-based bracket update
as Bisection. -/
def fposIter (f : ℚ → PyVal) (eps : ℚ) (op : EpsOp) (sbe : Bool)
    (i : ℕ) (xl xu fxl fxu xrOld : PyVal) : FPosIterOut :=
  match pyDiv (fxl.mul (xu.sub xl)) (fxu.sub fxl) with
  | none => .crash
  | some frac =>
    let xr := xl.sub frac
    let fxr := PyVal.app f xr
    let absDiff := (xr.sub xrOld).pyAbs
    let err : ErrDisp :=
      if 0 < i then
        (if (xr.pyAbs).ltQ tol10 then
          (match absDiff with | .num q => .val q | .nan => .val 0)
        else
          (match pyDivG absDiff xr.pyAbs with
            | .num q => .val (q * 100)
            | .nan => .val 0))
      else .dash
    let row : FPosRow := .iter i xl xu xr fxr err
    if (fxr.pyAbs).ltQ tol10 then
      .ret xr [row, .msgRow "Exact root found (within numerical precision)"]
    else
      match (if 0 < i ∧ sbe then fposEpsStop eps op absDiff else none) with
      | some t => .ret xr [row, .msgRow t]
      | none =>
          if (fxl.mul fxr).ltQ 0 then
            .cont xl xr fxl fxr xr row
          else
            .cont xr xu fxr fxu xr row

/-- The False Position `for i in range(max_iter)` loop, by recursion on
the remaining fuel; the fall-through appends the max-iterations row and
returns the last estimate (`UnboundLocalError` when no iteration ran). -/
def fposLoop (f : ℚ → PyVal) (eps : ℚ) (op : EpsOp) (sbe : Bool) :
    (fuel i : ℕ) → (xl xu fxl fxu xrOld : PyVal) → FPosResult
  | 0, i, _, _, _, _, xrOld =>
      if 0 < i then
        .ok (some xrOld) [.msgRow "Stopped by reaching maximum iterations"] 0
      else .nameErr 0
  | fuel + 1, i, xl, xu, fxl, fxu, xrOld =>
      match fposIter f eps op sbe i xl xu fxl fxu xrOld with
      | .ret root rows => .ok (some root) rows 1
      | .crash => .raised 1
      | .cont xl' xu' fxl' fxu' xr row =>
          match fposLoop f eps op sbe fuel (i + 1) xl' xu' fxl' fxu' xr with
          | .ok root rows p => .ok root (row :: rows) (p + 1)
          | .raised p => .raised (p + 1)
          | .nameErr p => .nameErr (p + 1)

/-- FalsePositionMethod.solve (false_position.py lines 6-131): the same
entry checks as Bisection — rejection only when `f(xl)*f(xu) > 0`, a bound
within `1e-10` of a root returned immediately — then the loop. -/
def fposSolve (f : ℚ → PyVal) (xl xu eps : ℚ) (op : EpsOp)
    (maxIter : ℕ) (sbe : Bool) : FPosResult :=
  let fxl := f xl
  let fxu := f xu
  if (fxl.mul fxu).gtQ 0 then
    .ok none [.errRow "The interval does not bracket a root"] 0
  else if (fxl.pyAbs).ltQ tol10 then
    .ok (some (.num xl)) [.msgRow "Lower bound is already a root"] 0
  else if (fxu.pyAbs).ltQ tol10 then
    .ok (some (.num xu)) [.msgRow "Upper bound is already a root"] 0
  else
    fposLoop f eps op sbe maxIter 0 (.num xl) (.num xu) fxl fxu (.num 0)

theorem fposLoop_passes_le (f : ℚ → PyVal) (eps : ℚ) (op : EpsOp) (sbe : Bool) :
    ∀ fuel i xl xu fxl fxu xrOld,
      (fposLoop f eps op sbe fuel i xl xu fxl fxu xrOld).passes ≤ fuel := by
  intro fuel
  induction fuel with
  | zero =>
      intro i xl xu fxl fxu xrOld
      simp only [fposLoop]
      split <;> simp [FPosResult.passes]
  | succ n ih =>
      intro i xl xu fxl fxu xrOld
      simp only [fposLoop]
      split
      · simp [FPosResult.passes]
      · simp [FPosResult.passes]
      · rename_i xl' xu' fxl' fxu' xr row heq
        have hrec := ih (i + 1) xl' xu' fxl' fxu' xr
        split <;> rename_i h2 <;> rw [h2] at hrec <;>
          simp only [FPosResult.passes] at hrec ⊢ <;> omega

/-- One row of the Fixed Point trace (fixed_point.py): an iteration record
`{Iteration, Xi, g(Xi), Xi+1, Error %}` or a single-key error row. -/
inductive FPtRow where
  | iter (i : ℕ) (xi gxi xnext : ℚ) (err : ErrDisp)
  | errRow (text : String)
deriving DecidableEq, Repr

/-- Result of the Fixed Point iteration (fixed_point.py lines 340-387).
On the NaN and in-iteration error paths the accumulated table is discarded
and a fresh single-row trace returned, exactly as in the source.
`fuelOut` is a modelling artifact of the fuel recursion: it is proven
unreachable when the loop is started with fuel `max_iter + 1`. -/
inductive FPtResult where
  | ok (root : ℚ) (rows : List FPtRow) (passes : ℕ)
  | err (rows : List FPtRow) (passes : ℕ)
  | fuelOut
deriving DecidableEq, Repr

/-- Number of loop-body passes of a Fixed Point result. -/
def FPtResult.passes : FPtResult → ℕ
  | .ok _ _ p => p
  | .err _ p => p
  | .fuelOut => 0

/-- Trace of a Fixed Point result. -/
def FPtResult.rows : FPtResult → List FPtRow
  | .ok _ rows _ => rows
  | .err rows _ => rows
  | .fuelOut => []

/-- Root of a Fixed Point result (absent on every error path). -/
def FPtResult.root : FPtResult → Option ℚ
  | .ok r _ _ => some r
  | _ => none

/-- The Fixed Point `while True` loop (fixed_point.py lines 347-384):
compute `g(x_i)`; a NaN aborts with a fresh single error row; from the
second pass on the percentage error `|(x_{i+1}-x_i)/x_{i+1}|*100` is
computed (an exactly-zero `x_{i+1}` raises `ZeroDivisionError`, caught by
the in-loop handler which also discards the table); append the row, shift
`x_i`, bump `iter_count`, and break when
`not (error > eps or iter_count == 1) or iter_count >= max_iter`. -/
def fixedPtLoop (g : ℚ → PyVal) (eps : ℚ) (maxIter : ℕ) :
    (fuel : ℕ) → (xi : ℚ) → (iterCount : ℕ) → (error : ℚ) → FPtResult
  | 0, _, _, _ => .fuelOut
  | fuel + 1, xi, itc, error =>
      match g xi with
      | .nan => .err [.errRow "NaN value encountered. The fixed point method failed to converge. Try a different initial guess or function."] 1
      | .num gxi =>
          let xiPlus1 := gxi
          if 0 < itc ∧ xiPlus1 = 0 then
            .err [.errRow "Error during iteration: float division by zero"] 1
          else
            let error' := if 0 < itc then ratAbs ((xiPlus1 - xi) / xiPlus1) * 100 else error
            let row : FPtRow := .iter itc xi gxi xiPlus1 (if itc = 0 then .dash else .val error')
            let itc' := itc + 1
            if ¬(error' > eps ∨ itc' = 1) ∨ itc' ≥ maxIter then
              .ok xiPlus1 [row] 1
            else
              match fixedPtLoop g eps maxIter fuel xiPlus1 itc' error' with
              | .ok root rows p => .ok root (row :: rows) (p + 1)
              | .err rows p => .err rows (p + 1)
              | .fuelOut => .fuelOut

/-- FixedPointMethod.solve after a successful `derive_gx` (fixed_point.py
lines 315-390), parameterized by the derived iteration function `g`; the
`eps_operator` and `stop_by_eps` arguments of the source signature are
unused by the loop, and the initial error value is `100.0`.  The loop is
started with fuel `max_iter + 1`, proven sufficient below. -/
def fixedPtSolve (g : ℚ → PyVal) (x0 eps : ℚ) (maxIter : ℕ) : FPtResult :=
  fixedPtLoop g eps maxIter (maxIter + 1) x0 0 100

theorem fixedPtLoop_bound (g : ℚ → PyVal) (eps : ℚ) (maxIter : ℕ) :
    ∀ fuel xi itc error, maxIter - itc < fuel →
      fixedPtLoop g eps maxIter fuel xi itc error ≠ .fuelOut ∧
      (fixedPtLoop g eps maxIter fuel xi itc error).passes ≤ max 1 (maxIter - itc) := by
  intro fuel
  induction fuel with
  | zero =>
      intro xi itc error h
      exact absurd h (Nat.not_lt_zero _)
  | succ n ih =>
      intro xi itc error h
      simp only [fixedPtLoop]
      split
      · exact ⟨by simp, by simp [FPtResult.passes]⟩
      · rename_i gxi hg
        split
        · exact ⟨by simp, by simp [FPtResult.passes]⟩
        · rename_i hzero
          by_cases hbr : ¬((if 0 < itc then ratAbs ((gxi - xi) / gxi) * 100 else error) > eps
              ∨ itc + 1 = 1) ∨ itc + 1 ≥ maxIter
          · rw [if_pos hbr]
            exact ⟨by simp, by simp [FPtResult.passes]⟩
          · rw [if_neg hbr]
            have hlt : itc + 1 < maxIter := by
              rcases not_or.mp hbr with ⟨-, h2⟩
              omega
            have hrec := ih gxi (itc + 1)
              (if 0 < itc then ratAbs ((gxi - xi) / gxi) * 100 else error) (by omega)
            split
            · rename_i root rows p h2
              rw [h2] at hrec
              refine ⟨by simp, ?_⟩
              simp only [FPtResult.passes] at hrec ⊢
              omega
            · rename_i rows p h2
              rw [h2] at hrec
              refine ⟨by simp, ?_⟩
              simp only [FPtResult.passes] at hrec ⊢
              omega
            · rename_i h2
              rw [h2] at hrec
              exact absurd rfl hrec.1

/-- One row of the Secant trace (secant.py): the initial-points row, an
iteration record (whose `Xi+1`, `f(Xi+1)` cells are `---` on the
iteration-0 row), or a message/warning/error row keyed by its first
field. -/
inductive SRow where
  | initRow (x0 : ℚ) (fx0 : PyVal) (x1 : ℚ) (fx1 : PyVal)
  | iterRow (i : ℕ) (xim1 xi : ℚ) (fxim1 fxi : PyVal) (xip1 : Option ℚ)
      (fxip1 : Option PyVal) (err : ErrDisp) (statusText : String)
  | msgRow (key text status details : String)
deriving DecidableEq, Repr

/-- Result of `SecantMethod.solve`: root, trace and loop passes (the
outer `except` clause of the source is unreachable for the modelled total
callables). -/
structure SecResult where
  root : Option ℚ
  rows : List SRow
  passes : ℕ
deriving DecidableEq, Repr

/-- Status field of a Secant row, when present. -/
def SRow.statusOf : SRow → Option String
  | .initRow _ _ _ _ => none
  | .iterRow _ _ _ _ _ _ _ _ s => some s
  | .msgRow _ _ s _ => some s

/-- The epsilon block of `SecantMethod.solve` (secant.py lines 178-242):
for `eps > 1` the relative percentage error (falling back to the absolute
difference when `abs(x_next) <= 1e-10`) is compared by the configured
operator, otherwise the absolute difference; on a hit the matching
message is produced and the method stops with status `CONVERGED`. -/
def secantEpsStop (eps : ℚ) (op : EpsOp) (absDiff xNext : ℚ) : Option String :=
  if eps > 1 then
    let relError := if ratAbs xNext > tol10 then absDiff / ratAbs xNext * 100 else absDiff
    match op with
    | .le => if relError ≤ eps then some "Relative Error <= eps" else none
    | .ge => if relError ≥ eps then some "Relative Error >= eps" else none
    | .lt => if relError < eps then some "Relative Error < eps" else none
    | .gt => if relError > eps then some "Relative Error > eps" else none
    | .eq => if ratAbs (relError - eps) < tol10 then some "Relative Error = eps" else none
  else
    match op with
    | .le => if absDiff ≤ eps then some "|xi+1 - xi| <= eps" else none
    | .ge => if absDiff ≥ eps then some "|xi+1 - xi| >= eps" else none
    | .lt => if absDiff < eps then some "|xi+1 - xi| < eps" else none
    | .gt => if absDiff > eps then some "|xi+1 - xi| > eps" else none
    | .eq => if ratAbs (absDiff - eps) < tol10 then some "|xi+1 - xi| = eps" else none

/-- The Secant `for i in range(1, max_iter + 1)` loop (secant.py lines
112-255): zero-denominator guard (`|f(x1)-f(x0)| < 1e-10` stops with the
current best estimate), secant update
`x2 = x1 - f(x1)(x1-x0)/(f(x1)-f(x0))`, NaN check on the new estimate,
error computation, exact-root short-circuit, epsilon block, shift.  The
fall-through appends the max-iterations row. -/
def secLoop (f : ℚ → PyVal) (eps : ℚ) (op : EpsOp) (sbe : Bool) (maxIter : ℕ) :
    (fuel i : ℕ) → (x0 x1 : ℚ) → (fx0 fx1 : PyVal) → SecResult
  | 0, _, _, x1, _, _ =>
      ⟨some x1,
        [.msgRow "Message" "Maximum iterations reached" "MAX_ITERATIONS"
          "Consider increasing the maximum iterations or trying different initial points"], 0⟩
  | fuel + 1, i, x0, x1, fx0, fx1 =>
      if ((fx1.sub fx0).pyAbs).ltQ tol10 then
        ⟨some x1,
          [.msgRow "Warning" "Secant denominator (f(x1) - f(x0)) is too close to zero"
            "ZERO_DENOMINATOR"
            "The function values at x0 and x1 are too close, causing numerical instability"], 1⟩
      else
        match PyVal.sub (.num x1) (pyDivG ((fx1.mul (.num (x1 - x0)))) (fx1.sub fx0)) with
        | .nan =>
            ⟨some x1,
              [.msgRow "Error" "Invalid value: NaN" "INVALID_VALUE"
                "The method has diverged or encountered a numeric issue"], 1⟩
        | .num xNext =>
            let fxNext := f xNext
            let error : ℚ :=
              if ratAbs xNext < tol10 then ratAbs (xNext - x1)
              else ratAbs ((xNext - x1) / xNext) * 100
            let row : SRow := .iterRow i x0 x1 fx0 fx1 (some xNext) (some fxNext)
              (.val error) (if i < maxIter then "Searching..." else "Max iterations reached")
            if (fxNext.pyAbs).ltQ tol10 then
              ⟨some xNext,
                [row, .msgRow "Message" "Exact root found (within numerical precision)"
                  "SUCCESS" "f(x) = 0 at x"], 1⟩
            else
              match (if sbe then secantEpsStop eps op (ratAbs (xNext - x1)) xNext else none) with
              | some t =>
                  ⟨some xNext,
                    [row, .msgRow "Message" t "CONVERGED" "Achieved desired accuracy"], 1⟩
              | none =>
                  let rec' := secLoop f eps op sbe maxIter fuel (i + 1) x1 xNext fx1 fxNext
                  ⟨rec'.root, row :: rec'.rows, rec'.passes + 1⟩

/-- SecantMethod.solve (secant.py lines 36-255): evaluate both seeds,
return a seed whose value is within `1e-10` of a root immediately,
otherwise record the initial-points row and the iteration-0 row and run
the loop from `i = 1`. -/
def secSolve (f : ℚ → PyVal) (x0 x1 eps : ℚ) (op : EpsOp)
    (maxIter : ℕ) (sbe : Bool) : SecResult :=
  let fx0 := f x0
  let fx1 := f x1
  if (fx0.pyAbs).ltQ tol10 then
    ⟨some x0, [.msgRow "Message" "First initial guess is already a root" "SUCCESS" "f(x0) = 0"], 0⟩
  else if (fx1.pyAbs).ltQ tol10 then
    ⟨some x1, [.msgRow "Message" "Second initial guess is already a root" "SUCCESS" "f(x1) = 0"], 0⟩
  else
    let res := secLoop f eps op sbe maxIter maxIter 1 x0 x1 fx0 fx1
    ⟨res.root,
      .initRow x0 fx0 x1 fx1 ::
        .iterRow 0 x0 x1 fx0 fx1 none none .dash "Starting..." :: res.rows,
      res.passes⟩

theorem secLoop_passes_le (f : ℚ → PyVal) (eps : ℚ) (op : EpsOp) (sbe : Bool) (maxIter : ℕ) :
    ∀ fuel i x0 x1 fx0 fx1,
      (secLoop f eps op sbe maxIter fuel i x0 x1 fx0 fx1).passes ≤ fuel := by
  intro fuel
  induction fuel with
  | zero =>
      intro i x0 x1 fx0 fx1
      simp [secLoop]
  | succ n ih =>
      intro i x0 x1 fx0 fx1
      simp only [secLoop]
      split
      · simp
      · split
        · simp
        · rename_i xNext hx
          split
          · simp
          · split
            · simp
            · simp only []
              have := ih (i + 1) x1 xNext fx1 (f xNext)
              omega

/-- No row of a Secant trace ever carries an `OSCILLATING` status: the
statuses that occur are the fixed set written in the source.  Stated as
the loop-level invariant used by the claim about oscillation detection. -/
theorem secLoop_no_oscillating (f : ℚ → PyVal) (eps : ℚ) (op : EpsOp) (sbe : Bool) (maxIter : ℕ) :
    ∀ fuel i x0 x1 fx0 fx1,
      ∀ r ∈ (secLoop f eps op sbe maxIter fuel i x0 x1 fx0 fx1).rows,
        r.statusOf ≠ some "OSCILLATING" := by
  intro fuel
  induction fuel with
  | zero =>
      intro i x0 x1 fx0 fx1 r hr
      simp only [secLoop] at hr
      simp only [List.mem_singleton] at hr
      subst hr
      simp [SRow.statusOf]
  | succ n ih =>
      intro i x0 x1 fx0 fx1 r hr
      simp only [secLoop] at hr
      split at hr
      · simp only [List.mem_singleton] at hr
        subst hr
        simp [SRow.statusOf]
      · split at hr
        · simp only [List.mem_singleton] at hr
          subst hr
          simp [SRow.statusOf]
        · rename_i xNext hx
          split at hr
          · simp only [List.mem_cons, List.not_mem_nil, or_false] at hr
            rcases hr with rfl | rfl
            · simp only [SRow.statusOf]
              split <;> simp
            · simp [SRow.statusOf]
          · split at hr
            · simp only [List.mem_cons, List.not_mem_nil, or_false] at hr
              rcases hr with rfl | rfl
              · simp only [SRow.statusOf]
                split <;> simp
              · simp [SRow.statusOf]
            · simp only [List.mem_cons] at hr
              rcases hr with rfl | hr
              · simp only [SRow.statusOf]
                split <;> simp
              · exact ih (i + 1) x1 xNext fx1 (f xNext) r hr

/-- ConvergenceStatus (newton_raphson.py lines 11-20). -/
inductive NRStatus where
  | converged | diverged | maxIterations | zeroDerivative
  | numericalError | domainError | oscillating | error
deriving DecidableEq, Repr

/-- A Newton-Raphson error value: a finite float or `float('inf')` (the
near-zero-estimate case of lines 406-411). -/
inductive NRErr where
  | fin (q : ℚ)
  | inf
deriving DecidableEq, Repr

/-- Displayed error of a Newton-Raphson row: the initial `---`, a finite
percentage, or `Inf%`. -/
inductive NRErrD where
  | dash
  | fin (q : ℚ)
  | infD
deriving DecidableEq, Repr

/-- One row of the Newton-Raphson table. -/
inductive NRRow where
  | iterRow (i : ℕ) (xi : ℚ) (fxi fpxi : PyVal) (err : NRErrD) (xnext : Option ℚ)
  | infoRow (text : String)
  | warnRow (text details : String)
  | resultRow (text details : String)
  | errorRow (text details : String)
deriving DecidableEq, Repr

/-- The Newton-Raphson table is an `OrderedDict` keyed by `"Iteration k"`:
assignment replaces an existing key in place (keeping its position) and
otherwise appends. -/
def nrSet : List (ℕ × NRRow) → ℕ → NRRow → List (ℕ × NRRow)
  | [], k, r => [(k, r)]
  | (k', r') :: rest, k, r =>
      if k' = k then (k, r) :: rest else (k', r') :: nrSet rest k r

/-- NewtonRaphsonMethod._check_convergence (newton_raphson.py lines
526-577): an infinite (or otherwise non-finite) error never satisfies the
criterion; the `=` operator uses tolerance `1e-9`. -/
def nrCheckConvergence : NRErr → ℚ → EpsOp → Bool
  | .inf, _, _ => false
  | .fin e, eps, op =>
      match op with
      | .le => e ≤ eps
      | .ge => e ≥ eps
      | .lt => e < eps
      | .gt => e > eps
      | .eq => ratAbs (e - eps) < tol9

/-- The recognized `stop_criteria` strings of `NewtonRaphsonMethod.solve`;
any other string falls back to the relative criterion, as does the
default. -/
inductive StopCrit where
  | absolute | relative | functionValue
deriving DecidableEq, Repr

/-- Outcome of the Step-6 convergence block (newton_raphson.py lines
447-471): stop as converged (directly or by the consecutive-iterations
rule), or proceed with the updated consecutive counter (reset to 0 on a
miss, unchanged when the block is skipped because `i = 0` or
`stop_by_eps` is off). -/
inductive NRConvEvent where
  | stopConverged (consecutive : Bool)
  | proceed (cc : ℕ)
deriving DecidableEq, Repr

/-- The Step-6 convergence decision of `NewtonRaphsonMethod.solve`. -/
def nrConvDecide (i : ℕ) (sbe : Bool) (hit : Bool) (ccheck : Bool)
    (cc ctol : ℕ) : NRConvEvent :=
  if 0 < i ∧ sbe then
    if hit then
      if ccheck then
        (if cc + 1 ≥ ctol then .stopConverged true else .proceed (cc + 1))
      else .stopConverged false
    else .proceed 0
  else .proceed cc

/-- Result of `NewtonRaphsonMethod.solve`: root, terminal status, the
`messages` list, the keyed table and the number of loop passes. -/
structure NRResult where
  root : Option ℚ
  status : NRStatus
  messages : List String
  table : List (ℕ × NRRow)
  passes : ℕ
deriving DecidableEq, Repr

/-- Outcome of one pass of the Newton-Raphson loop body.  `stop` carries
the pass's computed `x_current` (the source's local variable; `none` when
the pass returned before computing it) alongside the returned result;
`next` carries the new state. -/
inductive NRIterOut where
  | stop (xCur : Option ℚ) (res : NRResult)
  | next (xCur : ℚ) (errD : NRErrD) (prev : List ℚ) (cc : ℕ) (table : List (ℕ × NRRow))
deriving DecidableEq, Repr

/-- The Step-4 relative error of `NewtonRaphsonMethod.solve` (lines
402-411): the percentage error with the `1e-15` near-zero guards; the
`float('inf')` case arises when the new estimate is near zero but the
step is significant. -/
def nrRelErr (x xCur : ℚ) : NRErr :=
  let absDiff := ratAbs (xCur - x)
  if ratAbs xCur > tol15 then .fin (absDiff / ratAbs xCur * 100)
  else if absDiff < tol15 then .fin 0
  else .inf

/-- The error chosen for the convergence check by `stop_criteria`
(lines 413-421). -/
def nrErrForCheck (sc : StopCrit) (x xCur qfx : ℚ) : NRErr :=
  match sc with
  | .absolute => .fin (ratAbs (xCur - x))
  | .relative => nrRelErr x xCur
  | .functionValue => .fin (ratAbs qfx)

/-- The formatted error display (line 424). -/
def nrErrDisp (x xCur : ℚ) : NRErrD :=
  match nrRelErr x xCur with
  | .fin q => .fin q
  | .inf => .infD

/-- One pass of the Newton-Raphson loop body (newton_raphson.py lines
324-497).  Step 2: a derivative below `1e-10` in magnitude or NaN stops
with `zero_derivative` (root: the current estimate) before any new
estimate is computed; a NaN function value stops with `numerical_error`
(absent root).  Step 3: the new estimate `x_{i+1} = x_i - f(x_i)/f'(x_i)`
(the float NaN/Inf overflow check of the source cannot trigger over exact
rationals).  Step 4: relative error with the `1e-15` near-zero guards.
Step 5: exact-root short-circuit.  Step 6: the convergence block.
Step 7: divergence guard `|x| > 1e15` (absent root; the warning row
replaces this pass's iteration row, same key).  Step 8: oscillation scan
of the stored previous estimates, kept to the last 5. -/
def nrIter (f fp : ℚ → PyVal) (eps : ℚ) (op : EpsOp) (sbe : Bool)
    (sc : StopCrit) (ccheck : Bool) (ctol : ℕ)
    (i : ℕ) (x : ℚ) (errD : NRErrD) (prev : List ℚ) (cc : ℕ)
    (table : List (ℕ × NRRow)) : NRIterOut :=
  let fx := f x
  match fp x with
  | .nan =>
      let t1 := nrSet table (i + 1) (.iterRow (i + 1) x fx .nan errD none)
      let t2 := nrSet t1 (i + 2)
        (.warnRow "Derivative is zero or very close to zero" "Invalid derivative (NaN)")
      .stop none ⟨some x, .zeroDerivative, ["Invalid derivative (NaN)"], t2, 0⟩
  | .num qfp =>
      if ratAbs qfp < tol10 then
        let t1 := nrSet table (i + 1) (.iterRow (i + 1) x fx (.num qfp) errD none)
        let t2 := nrSet t1 (i + 2)
          (.warnRow "Derivative is zero or very close to zero"
            "Derivative is zero or very close to zero")
        .stop none ⟨some x, .zeroDerivative, ["Derivative is zero or very close to zero"], t2, 0⟩
      else
        match fx with
        | .nan =>
            let t1 := nrSet table (i + 1) (.iterRow (i + 1) x .nan (.num qfp) errD none)
            let t2 := nrSet t1 (i + 2)
              (.warnRow "Function value is invalid (NaN)"
                "Function value is invalid (NaN), likely outside domain")
            .stop none ⟨none, .numericalError, ["Function value is invalid (NaN)"], t2, 0⟩
        | .num qfx =>
            let xCur := x - qfx / qfp
            let errForCheck := nrErrForCheck sc x xCur qfx
            let errD' := nrErrDisp x xCur
            let t1 := nrSet table (i + 1)
              (.iterRow (i + 1) x (.num qfx) (.num qfp) errD' (some xCur))
            if ((f xCur).pyAbs).ltQ tol10 then
              .stop (some xCur) ⟨some xCur, .converged,
                ["Function value is zero within numerical precision"],
                nrSet t1 (i + 2)
                  (.resultRow "Exact root found (within numerical precision)" "f(x) = 0"), 0⟩
            else
              match nrConvDecide i sbe (nrCheckConvergence errForCheck eps op) ccheck cc ctol with
              | .stopConverged true =>
                  .stop (some xCur) ⟨some xCur, .converged,
                    ["Converged: error below threshold for consecutive iterations"],
                    nrSet t1 (i + 2)
                      (.resultRow "Converged: consecutive"
                        "Achieved desired accuracy based on relative error"), 0⟩
              | .stopConverged false =>
                  .stop (some xCur) ⟨some xCur, .converged, ["Converged: error meets threshold"],
                    nrSet t1 (i + 2)
                      (.resultRow "Converged"
                        "Achieved desired accuracy based on absolute error"), 0⟩
              | .proceed cc' =>
                  if ratAbs xCur > divergenceThreshold then
                    .stop (some xCur) ⟨none, .diverged, ["Method is diverging (value too large)"],
                      nrSet t1 (i + 1)
                        (.warnRow "Method is diverging"
                          "Root estimate exceeds safe bounds"), 0⟩
                  else if 2 ≤ prev.length ∧ prev.any (fun p => ratAbs (xCur - p) < tol6) then
                    .stop (some xCur) ⟨some xCur, .oscillating,
                      ["Method is oscillating between values"],
                      nrSet t1 (i + 1)
                        (.warnRow "Method is oscillating between values"
                          "Consider using a different initial guess or method"), 0⟩
                  else
                    let prev1 := prev ++ [xCur]
                    let prev2 := if 5 < prev1.length then prev1.tail else prev1
                    .next xCur errD' prev2 cc' t1

/-- The Newton-Raphson `for i in range(max_iter)` loop; the fall-through
stores the max-iterations result row under the key of the last pass's
iteration row (replacing it, as the source's keyed assignment does) and
reports an absent root with status `max_iterations`. -/
def nrLoop (f fp : ℚ → PyVal) (eps : ℚ) (op : EpsOp) (sbe : Bool)
    (sc : StopCrit) (ccheck : Bool) (ctol : ℕ) :
    (fuel i : ℕ) → (x : ℚ) → NRErrD → List ℚ → ℕ → List (ℕ × NRRow) → NRResult
  | 0, i, _, _, _, _, table =>
      ⟨none, .maxIterations, ["Maximum iterations reached"],
        nrSet table i (.resultRow "Maximum iterations reached" "Maximum iterations reached"), 0⟩
  | fuel + 1, i, x, errD, prev, cc, table =>
      match nrIter f fp eps op sbe sc ccheck ctol i x errD prev cc table with
      | .stop _ res => { res with passes := 1 }
      | .next xCur errD' prev' cc' t1 =>
          let res := nrLoop f fp eps op sbe sc ccheck ctol fuel (i + 1) xCur errD' prev' cc' t1
          { res with passes := res.passes + 1 }

/-- NewtonRaphsonMethod.solve (newton_raphson.py lines 218-515),
parameterized by the compiled function and derivative callables: the
initial guess is returned at once when `|f(x0)| < 1e-10`, otherwise the
iteration loop runs from an empty table, empty estimate store and zero
consecutive count. -/
def nrSolve (f fp : ℚ → PyVal) (x0 eps : ℚ) (op : EpsOp) (maxIter : ℕ)
    (sbe : Bool) (sc : StopCrit) (ccheck : Bool) (ctol : ℕ) : NRResult :=
  if ((f x0).pyAbs).ltQ tol10 then
    ⟨some x0, .converged, ["Initial guess is already a root (within numerical precision)"],
      nrSet (nrSet [] 0 (.infoRow "Initial guess: f is approximately 0")) 1
        (.resultRow "Initial guess is already a root (within numerical precision)" "---"), 0⟩
  else
    nrLoop f fp eps op sbe sc ccheck ctol maxIter 0 x0 .dash [] 0 []

theorem nrLoop_passes_le (f fp : ℚ → PyVal) (eps : ℚ) (op : EpsOp) (sbe : Bool)
    (sc : StopCrit) (ccheck : Bool) (ctol : ℕ) :
    ∀ fuel i x errD prev cc table,
      (nrLoop f fp eps op sbe sc ccheck ctol fuel i x errD prev cc table).passes ≤ fuel := by
  intro fuel
  induction fuel with
  | zero =>
      intro i x errD prev cc table
      simp [nrLoop]
  | succ n ih =>
      intro i x errD prev cc table
      simp only [nrLoop]
      split
      · simp
      · rename_i xCur errD' prev' cc' t1 heq
        have := ih (i + 1) xCur errD' prev' cc' t1
        simp only []
        omega

/-- The five root-finding method names of the Solver's dispatch table;
the linear-system methods of solver.py are outside the root-finding core
specified here. -/
inductive MethodName where
  | bisection | falsePosition | fixedPoint | newtonRaphson | secant
deriving DecidableEq, Repr

/-- A value of the loosely-typed parameter mapping: a number or a value
of any other type (rejected by the `isinstance` checks). -/
inductive PVal where
  | pnum (q : ℚ)
  | pother
deriving DecidableEq, Repr

/-- The parameter mapping of `Solver.solve`: each key present or
absent. -/
structure Params where
  xl : Option PVal
  xu : Option PVal
  xi : Option PVal
  xiMinus1 : Option PVal
deriving DecidableEq, Repr

/-- Solver.validate_parameters (solver.py lines 116-149), root-finding
branches: presence, `isinstance` number checks, bracket ordering
`xl < xu` for the bracketing methods and distinct seeds for Secant.
No check concerns the epsilon threshold. -/
def validateParameters (m : MethodName) (p : Params) : Option String :=
  match m with
  | .bisection | .falsePosition =>
      match p.xl, p.xu with
      | some (.pnum a), some (.pnum b) =>
          if a ≥ b then some "xl must be less than xu" else none
      | some _, some _ => some "xl and xu must be numbers"
      | _, _ => some "Missing parameters: xl and xu required"
  | .fixedPoint | .newtonRaphson =>
      match p.xi with
      | some (.pnum _) => none
      | some _ => some "xi must be a number"
      | none => some "Missing parameter: xi required"
  | .secant =>
      match p.xiMinus1, p.xi with
      | some (.pnum a), some (.pnum b) =>
          if a = b then some "xi_minus_1 must be different from xi" else none
      | some _, some _ => some "xi_minus_1 and xi must be numbers"
      | _, _ => some "Missing parameters: xi_minus_1 and xi required"

/-- The `params.get(key, 0)` lookup followed by `float(...)`: a missing
key defaults to `0` (unreachable for required keys after validation). -/
def Params.getQ : Option PVal → ℚ
  | some (.pnum q) => q
  | _ => 0

/-- Outcome of `Solver.solve` for the root-finding methods: a validation
failure (absent root with the single diagnostic row carrying the message)
or the dispatched method's result. -/
inductive SolverOut where
  | vErr (text : String)
  | bisect (r : BResult)
  | falsePos (r : FPosResult)
  | fixedPt (r : FPtResult)
  | newton (r : NRResult)
  | secant (r : SecResult)
deriving DecidableEq, Repr

/-- Solver.solve (solver.py lines 151-264) for the root-finding methods,
parameterized by the parsed expression `e` (the `validate_function` step
delegates to the sympy parser; a `ParseError` is surfaced before any
method runs and is outside this embedding) and, for the methods with
their own compilation pipelines, by the derived callables `g` (Fixed
Point) and `f`, `fpDeriv` (Newton-Raphson).  After `validate_parameters`
the matching method is invoked with the converted floats; no validation
of `eps` ever happens.  The Fixed Point dispatch passes the keyword
argument `auto_generate_g`, which `FixedPointMethod.solve` does not
accept: the call raises `TypeError`, caught by the outer handler, so the
Solver returns the single `Solver error` diagnostic row. -/
def solverSolve (m : MethodName) (e : Expr) (p : Params) (eps : ℚ) (op : EpsOp)
    (maxIter : ℕ) (sbe : Bool) (fNR fpNR : ℚ → PyVal) : SolverOut :=
  match validateParameters m p with
  | some msg => .vErr msg
  | none =>
      match m with
      | .bisection =>
          .bisect (bisectSolve (safeEval e) (Params.getQ p.xl) (Params.getQ p.xu)
            eps op maxIter sbe)
      | .falsePosition =>
          .falsePos (fposSolve (safeEval e) (Params.getQ p.xl) (Params.getQ p.xu)
            eps op maxIter sbe)
      | .fixedPoint =>
          .vErr "Solver error: solve() got an unexpected keyword argument auto_generate_g"
      | .newtonRaphson =>
          .newton (nrSolve fNR fpNR (Params.getQ p.xi) eps op maxIter sbe .relative false 3)
      | .secant =>
          .secant (secSolve (safeEval e) (Params.getQ p.xiMinus1) (Params.getQ p.xi)
            eps op maxIter sbe)

theorem bisectLoop_ok_of_pos (f : ℚ → PyVal) (eps : ℚ) (op : EpsOp) (sbe : Bool) :
    ∀ fuel i xl xu fxl fxu xrOld, 0 < i + fuel →
      ∃ root rows p, bisectLoop f eps op sbe fuel i xl xu fxl fxu xrOld = .ok root rows p := by
  intro fuel
  induction fuel with
  | zero =>
      intro i xl xu fxl fxu xrOld h
      simp only [bisectLoop]
      rw [if_pos (by omega)]
      exact ⟨_, _, _, rfl⟩
  | succ n ih =>
      intro i xl xu fxl fxu xrOld h
      simp only [bisectLoop]
      split
      · exact ⟨_, _, _, rfl⟩
      · rename_i xl' xu' fxl' fxu' xr row heq
        obtain ⟨root, rows, p, hrec⟩ := ih (i + 1) xl' xu' fxl' fxu' xr (by omega)
        rw [hrec]
        exact ⟨_, _, _, rfl⟩

theorem fixedPtLoop_ok_rows_end_iter (g : ℚ → PyVal) (eps : ℚ) (maxIter : ℕ) :
    ∀ fuel xi itc error root rows p,
      fixedPtLoop g eps maxIter fuel xi itc error = .ok root rows p →
      ∃ l i a b c e, rows = l ++ [FPtRow.iter i a b c e] := by
  intro fuel
  induction fuel with
  | zero =>
      intro xi itc error root rows p h
      exact absurd h (by simp [fixedPtLoop])
  | succ n ih =>
      intro xi itc error root rows p h
      simp only [fixedPtLoop] at h
      split at h
      · exact absurd h (by simp)
      · rename_i gxi hg
        split at h
        · exact absurd h (by simp)
        · rename_i hzero
          by_cases hbr : ¬((if 0 < itc then ratAbs ((gxi - xi) / gxi) * 100 else error) > eps
              ∨ itc + 1 = 1) ∨ itc + 1 ≥ maxIter
          · rw [if_pos hbr] at h
            simp only [FPtResult.ok.injEq] at h
            exact ⟨[], itc, xi, gxi, gxi,
              (if itc = 0 then ErrDisp.dash
                else ErrDisp.val (if 0 < itc then ratAbs ((gxi - xi) / gxi) * 100 else error)),
              by rw [← h.2.1]; simp⟩
          · rw [if_neg hbr] at h
            split at h
            · rename_i root' rows' p' h2
              simp only [FPtResult.ok.injEq] at h
              obtain ⟨l, i', a, b, c, e, hl⟩ := ih _ _ _ _ _ _ h2
              refine ⟨FPtRow.iter itc xi gxi gxi
                (if itc = 0 then ErrDisp.dash
                  else ErrDisp.val (if 0 < itc then ratAbs ((gxi - xi) / gxi) * 100 else error))
                :: l, i', a, b, c, e, ?_⟩
              rw [← h.2.1, hl]
              simp
            · exact absurd h (by simp)
            · exact absurd h (by simp)

/-- The error selected for comparison, per the specification's wording
(claim C7): when `eps > 1` the relative percentage error
`|x_new - x_old| / |x_new| * 100`, falling back to the absolute
difference when `|x_new|` is at most `1e-10`; when `eps <= 1` the
absolute difference.  Declared for comparison with the inlined ladders of
Bisection and Secant. -/
def specSelectedError (eps absDiff xNew : ℚ) : ℚ :=
  if eps > 1 then
    (if ratAbs xNew > tol10 then absDiff / ratAbs xNew * 100 else absDiff)
  else absDiff

/-- C7 — when `stop_by_eps` is active, Bisection and Secant stop on the
threshold check exactly when the convergence comparison
(`_check_convergence` of the shared base, with the configured operator)
holds of the error selected by the magnitude of the threshold itself:
relative percentage error for `eps > 1` (with absolute-difference
fallback when `|x_new| <= 1e-10`), absolute difference for `eps <= 1`. -/
theorem eps_magnitude_selects_error_metric (eps : ℚ) (op : EpsOp) (xNew xOld : ℚ) :
    (bisectEpsStop eps op (ratAbs (xNew - xOld)) xNew).isSome
      = checkConvergence (specSelectedError eps (ratAbs (xNew - xOld)) xNew) eps op ∧
    (secantEpsStop eps op (ratAbs (xNew - xOld)) xNew).isSome
      = checkConvergence (specSelectedError eps (ratAbs (xNew - xOld)) xNew) eps op := by
  constructor <;> cases op <;>
    simp only [bisectEpsStop, secantEpsStop, specSelectedError, checkConvergence] <;>
    split_ifs <;> simp <;> (try assumption) <;>
    (rename_i hc; first | exact lt_of_not_le hc | exact le_of_not_lt hc)

/-- C2 counterexample — with the iteration cap set to `0`, the Fixed
Point `while True` loop still enters its body once (its stop test runs
only after a full pass), so the solve call performs one iteration, more
than `max_iter`: the trace holds one iteration row and `passes = 1`.
The iteration function `g ≡ 0` is what `derive_gx` produces for
`f(x) = x/2` (isolating the highest-degree term of the polynomial leaves
`g(x) = 0`, accepted since `|g'(x0)| = 0 < 1`). -/
theorem fixedpoint_runs_one_iteration_at_zero_cap :
    fixedPtSolve (fun _ => PyVal.num 0) 3 (1 / 10000) 0
      = FPtResult.ok 0 [FPtRow.iter 0 3 0 0 ErrDisp.dash] 1 := by
  norm_num [fixedPtSolve, fixedPtLoop]

/-- C2 (amended) — for every cap `max_iter >= 1` (the data model requires
a positive cap), every method's solve call performs at most `max_iter`
loop passes, for every input function and every other parameter; only the
degenerate cap `0` is exceeded (by exactly one pass of the Fixed Point
post-test loop, see the counterexample). -/
theorem iteration_cap_bounds_all_methods
    (f fp g : ℚ → PyVal) (xl xu x0 x1 eps : ℚ) (op : EpsOp) (m : ℕ) (sbe : Bool)
    (sc : StopCrit) (cck : Bool) (ctol : ℕ) (hm : 1 ≤ m) :
    (bisectSolve f xl xu eps op m sbe).passes ≤ m ∧
    (fposSolve f xl xu eps op m sbe).passes ≤ m ∧
    (secSolve f x0 x1 eps op m sbe).passes ≤ m ∧
    (nrSolve f fp x0 eps op m sbe sc cck ctol).passes ≤ m ∧
    (fixedPtSolve g x0 eps m).passes ≤ m := by
  refine ⟨?_, ?_, ?_, ?_, ?_⟩
  · simp only [bisectSolve]
    split
    · simp [BResult.passes]
    · split
      · simp [BResult.passes]
      · split
        · simp [BResult.passes]
        · exact bisectLoop_passes_le f eps op sbe m 0 xl xu (f xl) (f xu) 0
  · simp only [fposSolve]
    split
    · simp [FPosResult.passes]
    · split
      · simp [FPosResult.passes]
      · split
        · simp [FPosResult.passes]
        · exact fposLoop_passes_le f eps op sbe m 0 (.num xl) (.num xu) (f xl) (f xu) (.num 0)
  · simp only [secSolve]
    split
    · simp
    · split
      · simp
      · exact secLoop_passes_le f eps op sbe m m 1 x0 x1 (f x0) (f x1)
  · simp only [nrSolve]
    split
    · simp
    · exact nrLoop_passes_le f fp eps op sbe sc cck ctol m 0 x0 .dash [] 0 []
  · have h := (fixedPtLoop_bound g eps m (m + 1) x0 0 100 (by omega)).2
    simp only [fixedPtSolve]
    calc (fixedPtLoop g eps m (m + 1) x0 0 100).passes
        ≤ max 1 (m - 0) := h
      _ ≤ m := by omega

/-- Witness for C2's amended bound at a concrete run of each method with
cap 1. -/
theorem iteration_cap_bounds_all_methods_witness :
    (bisectSolve (fun _ => PyVal.nan) 0 1 (1 / 100) .le 1 true).passes ≤ 1 ∧
    (fposSolve (fun _ => PyVal.nan) 0 1 (1 / 100) .le 1 true).passes ≤ 1 ∧
    (secSolve (fun _ => PyVal.nan) 0 1 (1 / 100) .le 1 true).passes ≤ 1 ∧
    (nrSolve (fun _ => PyVal.nan) (fun _ => PyVal.nan) 0 (1 / 100) .le 1 true
      .relative false 3).passes ≤ 1 ∧
    (fixedPtSolve (fun _ => PyVal.nan) 0 (1 / 100) 1).passes ≤ 1 :=
  iteration_cap_bounds_all_methods (fun _ => PyVal.nan) (fun _ => PyVal.nan)
    (fun _ => PyVal.nan) 0 1 0 1 (1 / 100) .le 1 true .relative false 3 (by decide)

/-- C4 counterexample — on `f(x) = x` with bracket `[0, 1]` the values
`f(0) = 0` and `f(1) = 1` do not have opposite signs, yet Bisection does
not terminate with an absent root and a diagnostic: the entry comparison
`f(xl)*f(xu) > 0` is false, and the near-zero lower bound is returned as
a present root with a single SUCCESS message row. -/
theorem bracketing_zero_bound_returns_root :
    bisectSolve (safeEval .var) 0 1 (1 / 10000) .le 50 true
      = BResult.ok (some 0) [BRow.msg "Lower bound is already a root" "SUCCESS" "f(xl) = 0"] 0 := by
  norm_num [bisectSolve, safeEval, evalRaw, PyVal.mul, PyVal.gtQ, PyVal.ltQ,
    PyVal.pyAbs, ratAbs, tol10]

/-- C4 (amended) — Bisection and False Position terminate immediately
with an absent root and a single diagnostic row exactly on the entry
condition the source tests, `f(xl)*f(xu) > 0` (strictly positive
product); performing no iteration.  When the product comparison is false
and a bound's value is within `1e-10` of zero, that bound is instead
returned as a present root with a single message row, again with no
iteration.  (A NaN bound falsifies the product comparison and iteration
proceeds — claim C10.) -/
theorem bracketing_entry_rejects_only_positive_product
    (f : ℚ → PyVal) (xl xu eps : ℚ) (op : EpsOp) (m : ℕ) (sbe : Bool) :
    (((f xl).mul (f xu)).gtQ 0 = true →
      bisectSolve f xl xu eps op m sbe
        = .ok none
          [.msg "The interval does not bracket a root. Ensure f(xl) and f(xu) have opposite signs."
            "ERROR" "f(xl) and f(xu) have the same sign"] 0 ∧
      fposSolve f xl xu eps op m sbe
        = .ok none [.errRow "The interval does not bracket a root"] 0) ∧
    (((f xl).mul (f xu)).gtQ 0 = false → ((f xl).pyAbs).ltQ tol10 = true →
      bisectSolve f xl xu eps op m sbe
        = .ok (some xl) [.msg "Lower bound is already a root" "SUCCESS" "f(xl) = 0"] 0 ∧
      fposSolve f xl xu eps op m sbe
        = .ok (some (.num xl)) [.msgRow "Lower bound is already a root"] 0) := by
  constructor
  · intro h
    constructor
    · simp only [bisectSolve]
      rw [if_pos h]
    · simp only [fposSolve]
      rw [if_pos h]
  · intro h h2
    constructor
    · simp only [bisectSolve]
      rw [if_neg (by simp [h]), if_pos h2]
    · simp only [fposSolve]
      rw [if_neg (by simp [h]), if_pos h2]

/-- Witness for C4's amended entry behavior: `f(x) = x^2 + 1` on `[1, 2]`
has a positive product and is rejected; `f(x) = x` on `[0, 1]` returns
the lower bound. -/
theorem bracketing_entry_rejects_only_positive_product_witness :
    (bisectSolve (safeEval (.add (.pow .var 2) (.const 1))) 1 2 (1 / 10000) .le 50 true
      = BResult.ok none
        [.msg "The interval does not bracket a root. Ensure f(xl) and f(xu) have opposite signs."
          "ERROR" "f(xl) and f(xu) have the same sign"] 0) ∧
    (fposSolve (safeEval .var) 0 1 (1 / 10000) .le 50 true
      = FPosResult.ok (some (.num 0)) [.msgRow "Lower bound is already a root"] 0) := by
  constructor
  · exact ((bracketing_entry_rejects_only_positive_product
      (safeEval (.add (.pow .var 2) (.const 1))) 1 2 (1 / 10000) .le 50 true).1
      (by norm_num [safeEval, evalRaw, RawOut.bin, PyVal.mul, PyVal.gtQ])).1
  · exact ((bracketing_entry_rejects_only_positive_product
      (safeEval .var) 0 1 (1 / 10000) .le 50 true).2
      (by norm_num [safeEval, evalRaw, PyVal.mul, PyVal.gtQ])
      (by norm_num [safeEval, evalRaw, PyVal.pyAbs, PyVal.ltQ, ratAbs, tol10])).2

/-- Status of the result returned by a stopping Newton-Raphson pass. -/
def NRIterOut.resStatus : NRIterOut → Option NRStatus
  | .stop _ res => some res.status
  | .next _ _ _ _ _ => none

/-- Root of the result returned by a stopping Newton-Raphson pass. -/
def NRIterOut.resRoot : NRIterOut → Option (Option ℚ)
  | .stop _ res => some res.root
  | .next _ _ _ _ _ => none

/-- The `x_current` computed by a Newton-Raphson pass (`none` when the
pass returned before computing it). -/
def NRIterOut.xCurOf : NRIterOut → Option ℚ
  | .stop xc _ => xc
  | .next xc _ _ _ _ => some xc

theorem ratSqrt_zero : ratSqrt 0 = 0 := by
  norm_num [ratSqrt]

/-- Modelled output of `NewtonRaphsonMethod._create_function` applied to
the text `2 + sqrt(x)`: the generated wrapper tests the (accidentally
truthy) domain condition and returns NaN for `x < 0`, otherwise
evaluates `2 + sqrt(x)`. -/
def nrSqrtF : ℚ → PyVal := fun x => if x < 0 then .nan else .num (2 + ratSqrt x)

/-- Modelled output of `NewtonRaphsonMethod._create_derivative` applied
to `2 + sqrt(x)`: the symbolic derivative `1/(2*sqrt(x))` contains
`sqrt`, so the generated wrapper returns NaN for every `x <= 0` and
otherwise evaluates. -/
def nrSqrtFp : ℚ → PyVal := fun x => if x ≤ 0 then .nan else .num (1 / (2 * ratSqrt x))

/-- C5 counterexample — on `f(x) = 2 + sqrt(x)` at `x0 = 0` the compiled
derivative evaluates to NaN, whose magnitude is *not* below `1e-10`
(every float comparison with NaN is False), yet Newton-Raphson terminates
with status `zero_derivative` without computing a new estimate — the
claim's `otherwise x_{i+1} = x_i - f(x_i)/f'(x_i)` branch is not taken. -/
theorem newton_nan_derivative_stops_zero_derivative :
    (nrSolve nrSqrtF nrSqrtFp 0 (1 / 10000) .le 50 true .relative false 3).status
        = NRStatus.zeroDerivative ∧
    (nrSolve nrSqrtF nrSqrtFp 0 (1 / 10000) .le 50 true .relative false 3).root = some 0 ∧
    nrSqrtFp 0 = PyVal.nan ∧
    ((nrSqrtFp 0).pyAbs).ltQ tol10 = false := by
  have hsolve : nrSolve nrSqrtF nrSqrtFp 0 (1 / 10000) .le 50 true .relative false 3
      = { root := some 0, status := .zeroDerivative, messages := ["Invalid derivative (NaN)"],
          table :=
            [(1, .iterRow 1 0 (.num 2) .nan .dash none),
             (2, .warnRow "Derivative is zero or very close to zero" "Invalid derivative (NaN)")],
          passes := 1 } := by
    norm_num [nrSolve, nrLoop, nrIter, nrSet, nrSqrtF, nrSqrtFp, ratSqrt_zero,
      PyVal.pyAbs, PyVal.ltQ, ratAbs, tol10]
  refine ⟨by rw [hsolve], by rw [hsolve], by simp [nrSqrtFp], by simp [nrSqrtFp, PyVal.pyAbs, PyVal.ltQ]⟩

/-- C5 (amended) — in every Newton-Raphson pass: a derivative value below
`1e-10` in magnitude *or* NaN terminates with status `zero_derivative`
(returning the current estimate) without computing a new estimate; with a
usable derivative, a NaN function value terminates with
`numerical_error` (absent root), again without a new estimate; otherwise
the pass computes exactly `x_{i+1} = x_i - f(x_i)/f'(x_i)` as its
estimate (whether it then stops or continues). -/
theorem newton_zero_derivative_rule
    (f fp : ℚ → PyVal) (eps : ℚ) (op : EpsOp) (sbe : Bool) (sc : StopCrit)
    (cck : Bool) (ctol : ℕ) (i : ℕ) (x : ℚ) (errD : NRErrD) (prev : List ℚ)
    (cc : ℕ) (table : List (ℕ × NRRow)) :
    (fp x = .nan →
      (nrIter f fp eps op sbe sc cck ctol i x errD prev cc table).resStatus
          = some .zeroDerivative ∧
      (nrIter f fp eps op sbe sc cck ctol i x errD prev cc table).resRoot = some (some x) ∧
      (nrIter f fp eps op sbe sc cck ctol i x errD prev cc table).xCurOf = none) ∧
    (∀ qfp, fp x = .num qfp → ratAbs qfp < tol10 →
      (nrIter f fp eps op sbe sc cck ctol i x errD prev cc table).resStatus
          = some .zeroDerivative ∧
      (nrIter f fp eps op sbe sc cck ctol i x errD prev cc table).resRoot = some (some x) ∧
      (nrIter f fp eps op sbe sc cck ctol i x errD prev cc table).xCurOf = none) ∧
    (∀ qfp, fp x = .num qfp → ¬(ratAbs qfp < tol10) → f x = .nan →
      (nrIter f fp eps op sbe sc cck ctol i x errD prev cc table).resStatus
          = some .numericalError ∧
      (nrIter f fp eps op sbe sc cck ctol i x errD prev cc table).resRoot = some none ∧
      (nrIter f fp eps op sbe sc cck ctol i x errD prev cc table).xCurOf = none) ∧
    (∀ qfp qfx, fp x = .num qfp → ¬(ratAbs qfp < tol10) → f x = .num qfx →
      (nrIter f fp eps op sbe sc cck ctol i x errD prev cc table).xCurOf
          = some (x - qfx / qfp)) := by
  refine ⟨?_, ?_, ?_, ?_⟩
  · intro hfp
    simp [nrIter, hfp, NRIterOut.resStatus, NRIterOut.resRoot, NRIterOut.xCurOf]
  · intro qfp hfp hsmall
    simp [nrIter, hfp, hsmall, NRIterOut.resStatus, NRIterOut.resRoot, NRIterOut.xCurOf]
  · intro qfp hfp hsmall hfx
    simp [nrIter, hfp, hsmall, hfx, NRIterOut.resStatus, NRIterOut.resRoot, NRIterOut.xCurOf]
  · intro qfp qfx hfp hsmall hfx
    simp only [nrIter, hfp, hfx, if_neg hsmall]
    split
    · simp [NRIterOut.xCurOf]
    · split <;> simp [NRIterOut.xCurOf] <;> split_ifs <;> simp [NRIterOut.xCurOf]

/-- Witness for C5's amended rule: at a NaN derivative the pass stops
with `zero_derivative`; with `f(x) = x^2` style values `f(3) = 5`,
`f'(3) = 2` the computed estimate is `3 - 5/2 = 1/2`. -/
theorem newton_zero_derivative_rule_witness :
    ((nrIter (fun _ => PyVal.num 5) (fun _ => PyVal.nan) (1 / 100) .le true .relative
        false 3 0 3 .dash [] 0 []).resStatus = some .zeroDerivative ∧
      (nrIter (fun _ => PyVal.num 5) (fun _ => PyVal.nan) (1 / 100) .le true .relative
        false 3 0 3 .dash [] 0 []).resRoot = some (some 3) ∧
      (nrIter (fun _ => PyVal.num 5) (fun _ => PyVal.nan) (1 / 100) .le true .relative
        false 3 0 3 .dash [] 0 []).xCurOf = none) ∧
    (nrIter (fun _ => PyVal.num 5) (fun _ => PyVal.num 2) (1 / 100) .le true .relative
        false 3 0 3 .dash [] 0 []).xCurOf = some (3 - 5 / 2) := by
  constructor
  · exact (newton_zero_derivative_rule (fun _ => PyVal.num 5) (fun _ => PyVal.nan)
      (1 / 100) .le true .relative false 3 0 3 .dash [] 0 []).1 rfl
  · exact (newton_zero_derivative_rule (fun _ => PyVal.num 5) (fun _ => PyVal.num 2)
      (1 / 100) .le true .relative false 3 0 3 .dash [] 0 []).2.2.2 2 5 rfl
      (by norm_num [ratAbs, tol10]) rfl

/-- C6 counterexample — Secant on `f(x) = x^2 - 8x + 8` with seeds
`0, 4` and the epsilon stop off: iteration 2 computes the new estimate
`0`, which matches the earlier estimate `0` (the first seed, within the
last 5 estimates) to well within `1e-6` — the claim demands termination
with status `oscillating` here — yet the method has no oscillation check:
iteration 3 still runs and the run ends with `MAX_ITERATIONS`; no row
ever carries an oscillating status. -/
theorem secant_has_no_oscillation_check :
    secSolve (safeEval (.add (.sub (.pow .var 2) (.mul (.const 8) .var)) (.const 8)))
        0 4 (1 / 2) .le 3 false
      = ⟨some (4 / 3),
          [.initRow 0 (.num 8) 4 (.num (-8)),
           .iterRow 0 0 4 (.num 8) (.num (-8)) none none .dash "Starting...",
           .iterRow 1 0 4 (.num 8) (.num (-8)) (some 2) (some (.num (-4))) (.val 100)
             "Searching...",
           .iterRow 2 4 2 (.num (-8)) (.num (-4)) (some 0) (some (.num 8)) (.val 2)
             "Searching...",
           .iterRow 3 2 0 (.num (-4)) (.num 8) (some (4 / 3)) (some (.num (-8 / 9)))
             (.val 100) "Max iterations reached",
           .msgRow "Message" "Maximum iterations reached" "MAX_ITERATIONS"
             "Consider increasing the maximum iterations or trying different initial points"],
          3⟩ ∧
    ratAbs (0 - 0) < tol6 := by
  constructor
  · norm_num [secSolve, secLoop, safeEval, evalRaw, RawOut.bin, pyDivG, pyDiv,
      PyVal.mul, PyVal.sub, PyVal.pyAbs, PyVal.ltQ, ratAbs, tol10]
  · norm_num [ratAbs, tol6]

/-- C6 (amended) — oscillation detection exists only in Newton-Raphson:
a pass whose new estimate `x_{i+1} = x_i - f(x_i)/f'(x_i)` passes the
exact-root, convergence-policy and divergence checks terminates with
status `oscillating` (root: the new estimate) whenever at least two
previous estimates are stored and the new estimate matches any stored
estimate (the store keeps the last 5) within `1e-6`.  Secant performs no
oscillation check at all: no row of any Secant trace ever carries an
`OSCILLATING` status. -/
theorem oscillation_check_newton_only
    (f fp : ℚ → PyVal) (eps : ℚ) (op : EpsOp) (sbe : Bool) (sc : StopCrit)
    (cck : Bool) (ctol : ℕ) (i : ℕ) (x x0 x1 : ℚ) (errD : NRErrD) (prev : List ℚ)
    (cc cc' : ℕ) (table : List (ℕ × NRRow)) (m : ℕ) :
    (∀ qfp qfx, fp x = .num qfp → ¬(ratAbs qfp < tol10) → f x = .num qfx →
      ((f (x - qfx / qfp)).pyAbs).ltQ tol10 = false →
      nrConvDecide i sbe
          (nrCheckConvergence (nrErrForCheck sc x (x - qfx / qfp) qfx) eps op) cck cc ctol
        = .proceed cc' →
      ¬(ratAbs (x - qfx / qfp) > divergenceThreshold) →
      2 ≤ prev.length →
      prev.any (fun p => ratAbs ((x - qfx / qfp) - p) < tol6) = true →
      (nrIter f fp eps op sbe sc cck ctol i x errD prev cc table).resStatus
          = some .oscillating ∧
      (nrIter f fp eps op sbe sc cck ctol i x errD prev cc table).resRoot
          = some (some (x - qfx / qfp))) ∧
    (∀ r ∈ (secSolve f x0 x1 eps op m sbe).rows, r.statusOf ≠ some "OSCILLATING") := by
  constructor
  · intro qfp qfx hfp hsmall hfx hroot hconv hdiv hlen hosc
    simp only [nrIter, hfp, hfx]
    rw [if_neg hsmall, hroot]
    simp only [Bool.false_eq_true, if_false, hconv]
    rw [if_neg hdiv, if_pos ⟨hlen, hosc⟩]
    simp [NRIterOut.resStatus, NRIterOut.resRoot]
  · intro r hr
    simp only [secSolve] at hr
    split at hr
    · simp only [List.mem_singleton] at hr
      subst hr
      simp [SRow.statusOf]
    · split at hr
      · simp only [List.mem_singleton] at hr
        subst hr
        simp [SRow.statusOf]
      · simp only [List.mem_cons] at hr
        rcases hr with rfl | rfl | hr
        · simp [SRow.statusOf]
        · simp [SRow.statusOf]
        · exact secLoop_no_oscillating f eps op sbe m m 1 x0 x1 (f x0) (f x1) r hr

/-- Witness for C6's amended rule: a Newton-Raphson pass whose new
estimate `0` matches a stored previous estimate stops with status
`oscillating`; a Secant trace row never carries an oscillating status. -/
theorem oscillation_check_newton_only_witness :
    (nrIter (fun _ => PyVal.num 1) (fun _ => PyVal.num 1) (1 / 100) .le false .relative
        false 3 0 1 .dash [0, 4] 0 []).resStatus = some NRStatus.oscillating ∧
    (SRow.initRow 0 (PyVal.num 1) 1 (PyVal.num 1)).statusOf ≠ some "OSCILLATING" := by
  constructor
  · exact ((oscillation_check_newton_only (fun _ => PyVal.num 1) (fun _ => PyVal.num 1)
      (1 / 100) .le false .relative false 3 0 1 0 1 .dash [0, 4] 0 0 [] 0).1 1 1 rfl
      (by norm_num [ratAbs, tol10]) rfl (by norm_num [PyVal.pyAbs, PyVal.ltQ, ratAbs, tol10])
      (by simp [nrConvDecide]) (by norm_num [ratAbs, divergenceThreshold]) (by decide)
      (by norm_num [ratAbs, tol6])).1
  · exact (oscillation_check_newton_only (fun _ => PyVal.num 1) (fun _ => PyVal.num 1)
      (1 / 100) .le false .relative false 3 0 1 0 1 .dash [0, 4] 0 0 [] 0).2
      (SRow.initRow 0 (PyVal.num 1) 1 (PyVal.num 1))
      (by norm_num [secSolve, secLoop, PyVal.pyAbs, PyVal.ltQ, ratAbs, tol10])

/-- C8 counterexample — a negative threshold `eps = -1` violates the
positivity requirement the claim says the Solver enforces, yet
`validate_parameters` never examines the threshold: validation passes,
Bisection is invoked and iterates twice (two iteration rows, a present
root) instead of an absent root with a single diagnostic row and no
method invocation. -/
theorem solver_dispatches_with_negative_threshold :
    solverSolve .bisection (.sub (.pow .var 2) (.const 4))
        ⟨some (.pnum 0), some (.pnum 3), none, none⟩ (-1) .le 2 true
        (fun _ => PyVal.nan) (fun _ => PyVal.nan)
      = .bisect (.ok (some (9 / 4))
          [.iter 0 0 3 (3 / 2) (.num (-7 / 4)) .dash (some "Lower bound updated"),
           .iter 1 (3 / 2) 3 (9 / 4) (.num (17 / 16)) (.val (100 / 3))
             (some "Upper bound updated"),
           .msg "Stopped by reaching maximum iterations" "MAX_ITERATIONS"
             "Consider increasing max_iter for more precision"] 2) := by
  norm_num [solverSolve, validateParameters, Params.getQ, bisectSolve, bisectLoop,
    bisectIter, bisectEpsStop, safeEval, evalRaw, RawOut.bin, PyVal.mul, PyVal.gtQ,
    PyVal.ltQ, PyVal.pyAbs, ratAbs, tol10]

/-- C8 (amended) — the Solver's parameter validation checks bracket
ordering for the bracketing methods and distinct seeds for Secant, and on
failure returns the single diagnostic row without invoking any method;
but it performs no threshold validation at all: for every `eps`
(including non-positive values and values beyond the configured
`MAX_EPS`, which only the UI layer checks), a call with valid parameters
is dispatched to the method. -/
theorem solver_validates_brackets_and_seeds_not_threshold
    (e : Expr) (p : Params) (eps : ℚ) (op : EpsOp) (m : ℕ) (sbe : Bool)
    (fNR fpNR : ℚ → PyVal) (a b : ℚ) :
    (p.xl = some (.pnum a) → p.xu = some (.pnum b) → b ≤ a →
      solverSolve .bisection e p eps op m sbe fNR fpNR = .vErr "xl must be less than xu" ∧
      solverSolve .falsePosition e p eps op m sbe fNR fpNR
        = .vErr "xl must be less than xu") ∧
    (p.xiMinus1 = some (.pnum a) → p.xi = some (.pnum a) →
      solverSolve .secant e p eps op m sbe fNR fpNR
        = .vErr "xi_minus_1 must be different from xi") ∧
    (p.xl = some (.pnum a) → p.xu = some (.pnum b) → a < b →
      solverSolve .bisection e p eps op m sbe fNR fpNR
        = .bisect (bisectSolve (safeEval e) a b eps op m sbe)) := by
  refine ⟨?_, ?_, ?_⟩
  · intro hxl hxu hba
    constructor <;>
      simp [solverSolve, validateParameters, hxl, hxu, ge_iff_le, hba]
  · intro hxm hxi
    simp [solverSolve, validateParameters, hxm, hxi]
  · intro hxl hxu hab
    simp [solverSolve, validateParameters, hxl, hxu, Params.getQ, not_le.mpr hab]

/-- Witness for C8's amended behavior: a reversed bracket is rejected
with the diagnostic; a valid bracket with the invalid threshold `-1` is
dispatched to Bisection. -/
theorem solver_validates_brackets_and_seeds_not_threshold_witness :
    (solverSolve .bisection .var ⟨some (.pnum 5), some (.pnum 1), none, none⟩ (1 / 100) .le
        50 true (fun _ => PyVal.nan) (fun _ => PyVal.nan) = .vErr "xl must be less than xu") ∧
    (solverSolve .secant .var ⟨none, none, some (.pnum 2), some (.pnum 2)⟩ (1 / 100) .le
        50 true (fun _ => PyVal.nan) (fun _ => PyVal.nan)
      = .vErr "xi_minus_1 must be different from xi") ∧
    (solverSolve .bisection .var ⟨some (.pnum 0), some (.pnum 3), none, none⟩ (-1) .le
        2 true (fun _ => PyVal.nan) (fun _ => PyVal.nan)
      = .bisect (bisectSolve (safeEval .var) 0 3 (-1) .le 2 true)) := by
  refine ⟨?_, ?_, ?_⟩
  · exact ((solver_validates_brackets_and_seeds_not_threshold .var
      ⟨some (.pnum 5), some (.pnum 1), none, none⟩ (1 / 100) .le 50 true
      (fun _ => PyVal.nan) (fun _ => PyVal.nan) 5 1).1 rfl rfl (by norm_num)).1
  · exact (solver_validates_brackets_and_seeds_not_threshold .var
      ⟨none, none, some (.pnum 2), some (.pnum 2)⟩ (1 / 100) .le 50 true
      (fun _ => PyVal.nan) (fun _ => PyVal.nan) 2 2).2.1 rfl rfl
  · exact (solver_validates_brackets_and_seeds_not_threshold .var
      ⟨some (.pnum 0), some (.pnum 3), none, none⟩ (-1) .le 2 true
      (fun _ => PyVal.nan) (fun _ => PyVal.nan) 0 3).2.2 rfl rfl (by norm_num)

/-- C9 counterexample — a Fixed Point run that stops at the iteration cap
returns its trace with a plain iteration record as the final row: no
explanation row with a message is ever appended.  The iteration function
`g ≡ 0` is `derive_gx`'s closed-form result for `f(x) = x/2`. -/
theorem fixedpoint_trace_ends_without_explanation :
    fixedPtSolve (fun _ => PyVal.num 0) 3 (1 / 10000) 1
      = FPtResult.ok 0 [FPtRow.iter 0 3 0 0 ErrDisp.dash] 1 := by
  norm_num [fixedPtSolve, fixedPtLoop]

/-- C9 (amended) — Bisection ends every returned trace (for a positive
iteration cap) with a terminal explanation row carrying a non-empty
message, for every terminal status; Fixed Point does not: every normally
returned Fixed Point trace ends with a plain iteration record (its error
paths replace the trace by a single error row; no path appends an
explanation row after the iteration rows). -/
theorem terminal_explanation_bisection_not_fixedpoint
    (f g : ℚ → PyVal) (xl xu x0 eps : ℚ) (op : EpsOp) (m : ℕ) (sbe : Bool) :
    (1 ≤ m → ∃ root rows p l t s d,
      bisectSolve f xl xu eps op m sbe = .ok root rows p ∧
      rows = l ++ [BRow.msg t s d] ∧ t ≠ "") ∧
    (∀ root rows p, fixedPtSolve g x0 eps m = .ok root rows p →
      ∃ l i a b c e, rows = l ++ [FPtRow.iter i a b c e]) := by
  constructor
  · intro hm
    simp only [bisectSolve]
    split
    · exact ⟨none, _, 0, [], _, _, _, rfl, rfl, by simp⟩
    · split
      · exact ⟨some xl, _, 0, [], _, _, _, rfl, rfl, by simp⟩
      · split
        · exact ⟨some xu, _, 0, [], _, _, _, rfl, rfl, by simp⟩
        · obtain ⟨root, rows, p, heq⟩ :=
            bisectLoop_ok_of_pos f eps op sbe m 0 xl xu (f xl) (f xu) 0 (by omega)
          obtain ⟨l, t, s, d, hrows, ht⟩ :=
            bisectLoop_rows_end_msg f eps op sbe m 0 xl xu (f xl) (f xu) 0
          rw [heq] at hrows
          simp only [BResult.rows] at hrows
          exact ⟨root, rows, p, l, t, s, d, heq, hrows, ht⟩
  · intro root rows p h
    exact fixedPtLoop_ok_rows_end_iter g eps m (m + 1) x0 0 100 root rows p h

/-- Witness for C9's amended statement: a concrete Bisection trace ends
with a message row and a concrete Fixed Point trace ends with an
iteration record. -/
theorem terminal_explanation_bisection_not_fixedpoint_witness :
    (∃ root rows p l t s d,
      bisectSolve (fun _ => PyVal.nan) 0 1 (1 / 100) .le 1 true = .ok root rows p ∧
      rows = l ++ [BRow.msg t s d] ∧ t ≠ "") ∧
    (∃ l i a b c e, [FPtRow.iter 0 3 0 0 ErrDisp.dash] = l ++ [FPtRow.iter i a b c e]) := by
  constructor
  · exact (terminal_explanation_bisection_not_fixedpoint (fun _ => PyVal.nan)
      (fun _ => PyVal.num 0) 0 1 3 (1 / 100) .le 1 true).1 (by decide)
  · exact (terminal_explanation_bisection_not_fixedpoint (fun _ => PyVal.nan)
      (fun _ => PyVal.num 0) 0 1 3 (1 / 100) .le 1 true).2 0 [FPtRow.iter 0 3 0 0 ErrDisp.dash] 1
      (by norm_num [fixedPtSolve, fixedPtLoop])

theorem bisectIter_first_row (f : ℚ → PyVal) (eps : ℚ) (op : EpsOp) (sbe : Bool)
    (xl xu : ℚ) (fxl fxu : PyVal) (xrOld : ℚ) :
    (∀ root rows, bisectIter f eps op sbe 0 xl xu fxl fxu xrOld = .ret root rows →
      ∃ u rest,
        rows = BRow.iter 0 xl xu ((xl + xu) / 2) (f ((xl + xu) / 2)) .dash u :: rest) ∧
    (∀ a b c d xr row, bisectIter f eps op sbe 0 xl xu fxl fxu xrOld = .cont a b c d xr row →
      ∃ u, row = BRow.iter 0 xl xu ((xl + xu) / 2) (f ((xl + xu) / 2)) .dash u) := by
  constructor
  · intro root rows h
    simp only [bisectIter] at h
    split at h
    · simp only [BIterOut.ret.injEq] at h
      exact ⟨none, _, h.2.symm⟩
    · split at h
      · simp only [BIterOut.ret.injEq] at h
        exact ⟨none, _, h.2.symm⟩
      · split at h <;> exact absurd h (by simp)
  · intro a b c d xr row h
    simp only [bisectIter] at h
    split at h
    · exact absurd h (by simp)
    · split at h
      · exact absurd h (by simp)
      · split at h <;>
          (simp only [BIterOut.cont.injEq] at h
           exact ⟨_, h.2.2.2.2.2.symm⟩)

theorem ratSqrt_four : ratSqrt 4 = 2 := by
  have h : Nat.sqrt (Int.toNat 4) = 2 := by
    have h4 : Int.toNat 4 = 4 := rfl
    rw [h4]
    exact (Nat.eq_sqrt.mpr (by norm_num)).symm
  norm_num [ratSqrt, h]

/-- C10 (amended) — Bisection's entry check rejects the interval only
when the product `f(xl)*f(xu)` is strictly greater than zero, so a NaN
value at either bound falsifies the comparison and no domain error is
reported; unless a bound's value lies within `1e-10` of zero (in which
case that bound is returned as a root at once), the method then proceeds
to iterate on the invalid bracket: the first trace row is the iteration-0
record with the midpoint estimate, and at least one loop pass runs. -/
theorem bisection_nan_bound_passes_entry_check
    (f : ℚ → PyVal) (xl xu eps : ℚ) (op : EpsOp) (m : ℕ) (sbe : Bool)
    (hnan : (f xl).isNan = true ∨ (f xu).isNan = true) :
    ((f xl).mul (f xu)).gtQ 0 = false ∧
    (((f xl).pyAbs).ltQ tol10 = false → ((f xu).pyAbs).ltQ tol10 = false → 1 ≤ m →
      ∃ root rows p u rest,
        bisectSolve f xl xu eps op m sbe = .ok root rows p ∧
        rows = BRow.iter 0 xl xu ((xl + xu) / 2) (f ((xl + xu) / 2)) .dash u :: rest ∧
        1 ≤ p) := by
  have hprod : ((f xl).mul (f xu)).gtQ 0 = false := by
    rcases hnan with h | h <;> cases hxl : f xl <;> cases hxu : f xu <;>
      simp_all [PyVal.isNan, PyVal.mul, PyVal.gtQ]
  refine ⟨hprod, ?_⟩
  intro hrl hru hm
  simp only [bisectSolve]
  rw [if_neg (by simp [hprod]), if_neg (by simp [hrl]), if_neg (by simp [hru])]
  obtain ⟨m', rfl⟩ : ∃ m', m = m' + 1 := ⟨m - 1, by omega⟩
  simp only [bisectLoop]
  split
  · rename_i root rows heq
    obtain ⟨u, rest, hrows⟩ :=
      (bisectIter_first_row f eps op sbe xl xu (f xl) (f xu) 0).1 root rows heq
    exact ⟨some root, rows, 1, u, rest, rfl, hrows, le_rfl⟩
  · rename_i a b c d xr row heq
    obtain ⟨u, hrow⟩ :=
      (bisectIter_first_row f eps op sbe xl xu (f xl) (f xu) 0).2 a b c d xr row heq
    obtain ⟨root, rows, p, hrec⟩ :=
      bisectLoop_ok_of_pos f eps op sbe m' 1 a b c d xr (by omega)
    rw [hrec]
    exact ⟨root, row :: rows, p + 1, u, rows, rfl, by rw [hrow], by omega⟩

/-- C10 counterexample — `f(x) = sqrt(x)` on `[-1, 0]`: the lower bound
evaluates to NaN, so the entry comparison is indeed false and no domain
error is reported, but the method does *not* proceed to iterate — the
upper bound's value `0` is within `1e-10` of zero, so `0` is returned as
the root with a single message row and zero iterations. -/
theorem bisection_nan_bound_no_iteration_on_zero_bound :
    bisectSolve (safeEval (.sqrt .var)) (-1) 0 (1 / 10000) .le 50 true
      = BResult.ok (some 0) [BRow.msg "Upper bound is already a root" "SUCCESS" "f(xu) = 0"] 0 ∧
    (safeEval (.sqrt .var) (-1)).isNan = true := by
  constructor
  · norm_num [bisectSolve, safeEval, evalRaw, ratSqrt_zero, PyVal.mul, PyVal.gtQ,
      PyVal.ltQ, PyVal.pyAbs, ratAbs, tol10]
  · norm_num [safeEval, evalRaw, PyVal.isNan]

/-- Witness for C10's amended statement at `f(x) = sqrt(x)` on
`[-1, 4]`: the NaN lower bound passes the entry check and the method
iterates. -/
theorem bisection_nan_bound_passes_entry_check_witness :
    ((safeEval (.sqrt .var) (-1)).mul (safeEval (.sqrt .var) 4)).gtQ 0 = false ∧
    (∃ root rows p u rest,
      bisectSolve (safeEval (.sqrt .var)) (-1) 4 (1 / 10000) .le 50 true = .ok root rows p ∧
      rows = BRow.iter 0 (-1) 4 ((-1 + 4) / 2) (safeEval (.sqrt .var) ((-1 + 4) / 2))
        .dash u :: rest ∧
      1 ≤ p) := by
  have h := bisection_nan_bound_passes_entry_check (safeEval (.sqrt .var)) (-1) 4
    (1 / 10000) .le 50 true
    (Or.inl (by norm_num [safeEval, evalRaw, PyVal.isNan]))
  refine ⟨h.1, h.2 ?_ ?_ (by decide)⟩
  · norm_num [safeEval, evalRaw, PyVal.pyAbs, PyVal.ltQ, ratAbs, tol10]
  · norm_num [safeEval, evalRaw, ratSqrt_four, PyVal.pyAbs, PyVal.ltQ, ratAbs, tol10]
